import Mathlib

/-!
# Verification of the color-block puzzle movement/collision core

Shallow embedding of the constrained-movement and collision-resolution
engine of the color-block puzzle game (TypeScript source under `src/`):
the grid occupancy model (`src/src/game/entities/Grid.ts`), block shape
geometry (`src/src/game/entities/Block.ts`, `src/unnamed/part_002` shape
catalog), collision detection (`src/src/game/systems/CollisionDetector.ts`,
which contains two concatenated versions of the class: a swept/AABB
version at lines 1-334 and a sliding version at lines 336-551), exit
matching (`src/unnamed/part_001`) and the drag lifecycle controller
(`src/unnamed/part_004`).

Continuous world coordinates are modelled as rationals (the source uses
JS doubles; all the arithmetic involved is exact on the inputs considered).
Grid coordinates are integers.  The occupancy table maps each integer
cell to an optional occupant block id (the source stores a live object
reference; we store the stable id and resolve it against the block list,
which is the functional rendering of reference identity).
-/

namespace ColorBlock

/-- A (row, col) offset of one cell of a polyomino shape
(`src/unnamed/part_002`, interface `CellOffset`). -/
structure CellOffset where
  row : Int
  col : Int
deriving DecidableEq, Repr

/-- A discrete grid coordinate (`Grid.ts`, interface `GridPosition`). -/
structure GridPosition where
  row : Int
  col : Int
deriving DecidableEq, Repr

/-- A continuous world coordinate (`Grid.ts`, interface `WorldPosition`). -/
structure WorldPosition where
  x : ℚ
  y : ℚ
deriving DecidableEq, Repr

/-- An axis-aligned rectangle in world space (`Grid.ts`, interface `Bounds`). -/
structure Bounds where
  left : ℚ
  right : ℚ
  top : ℚ
  bottom : ℚ
deriving DecidableEq, Repr

/-- The shape tags of the catalog (`src/unnamed/part_002`, type `ShapeType`). -/
inductive ShapeType where
  | r1x1 | r1x2 | r1x3 | r2x2 | r2x3 | r3x3
  | L0 | L90 | L180 | L270
  | T0 | T90 | T180 | T270
  | Cross
deriving DecidableEq, Repr

/-- The shape catalog (`src/unnamed/part_002`, constant `SHAPES`). -/
def SHAPES : ShapeType → List CellOffset
  | .r1x1 => [⟨0, 0⟩]
  | .r1x2 => [⟨0, 0⟩, ⟨0, 1⟩]
  | .r1x3 => [⟨0, 0⟩, ⟨0, 1⟩, ⟨0, 2⟩]
  | .r2x2 => [⟨0, 0⟩, ⟨0, 1⟩, ⟨1, 0⟩, ⟨1, 1⟩]
  | .r2x3 => [⟨0, 0⟩, ⟨0, 1⟩, ⟨0, 2⟩, ⟨1, 0⟩, ⟨1, 1⟩, ⟨1, 2⟩]
  | .r3x3 => [⟨0, 0⟩, ⟨0, 1⟩, ⟨0, 2⟩, ⟨1, 0⟩, ⟨1, 1⟩, ⟨1, 2⟩, ⟨2, 0⟩, ⟨2, 1⟩, ⟨2, 2⟩]
  | .L0 => [⟨0, 0⟩, ⟨1, 0⟩, ⟨2, 0⟩, ⟨2, 1⟩]
  | .L90 => [⟨0, 0⟩, ⟨0, 1⟩, ⟨0, 2⟩, ⟨1, 0⟩]
  | .L180 => [⟨0, 0⟩, ⟨0, 1⟩, ⟨1, 1⟩, ⟨2, 1⟩]
  | .L270 => [⟨0, 2⟩, ⟨1, 0⟩, ⟨1, 1⟩, ⟨1, 2⟩]
  | .T0 => [⟨0, 1⟩, ⟨1, 0⟩, ⟨1, 1⟩, ⟨1, 2⟩]
  | .T90 => [⟨0, 0⟩, ⟨1, 0⟩, ⟨1, 1⟩, ⟨2, 0⟩]
  | .T180 => [⟨0, 0⟩, ⟨0, 1⟩, ⟨0, 2⟩, ⟨1, 1⟩]
  | .T270 => [⟨0, 1⟩, ⟨1, 0⟩, ⟨1, 1⟩, ⟨2, 1⟩]
  | .Cross => [⟨0, 1⟩, ⟨1, 0⟩, ⟨1, 1⟩, ⟨1, 2⟩, ⟨2, 1⟩]

/-- `src/unnamed/part_002`, function `getShapeOffsets`. -/
def getShapeOffsets (shape : ShapeType) : List CellOffset := SHAPES shape

/-- Minimum of a list of integers.  The source computes
`Math.min(...list)`, which yields `Infinity` on an empty list; the
catalog shapes are all non-empty, and we default to `0` on `[]`. -/
def listMinI : List Int → Int
  | [] => 0
  | a :: t => t.foldl min a

/-- Maximum of a list of integers (`Math.max(...list)`, default `0` on `[]`). -/
def listMaxI : List Int → Int
  | [] => 0
  | a :: t => t.foldl max a

/-- The grid: dimensions, geometry and the mutable occupancy table
(`Grid.ts`, class `Grid`).  The geometry fields (`cellSize`,
`wallThickness`, origin) are computed once at level load by the source
constructor and never change; we take them as given.  `cells` is the
occupancy table; the source restricts its index range to
`[0, rows) × [0, cols)`, which the accessors below enforce. -/
structure Grid where
  rows : Int
  cols : Int
  cellSize : ℚ
  x : ℚ
  y : ℚ
  wallThickness : ℚ
  cells : Int → Int → Option String

namespace Grid

/-- `Grid.worldToGrid` (`Grid.ts` lines 92-100): floor-divides the
wall-offset position by the cell size.  Not bounds-checked. -/
def worldToGrid (g : Grid) (worldX worldY : ℚ) : GridPosition :=
  let relativeX := worldX - (g.x + g.wallThickness)
  let relativeY := worldY - (g.y + g.wallThickness)
  ⟨⌊relativeY / g.cellSize⌋, ⌊relativeX / g.cellSize⌋⟩

/-- `Grid.gridToWorld` (`Grid.ts` lines 105-110). -/
def gridToWorld (g : Grid) (row col : Int) : WorldPosition :=
  ⟨g.x + g.wallThickness + col * g.cellSize,
   g.y + g.wallThickness + row * g.cellSize⟩

/-- `Grid.isInBounds` (`Grid.ts` lines 115-117). -/
def isInBounds (g : Grid) (row col : Int) : Bool :=
  decide (0 ≤ row ∧ row < g.rows ∧ 0 ≤ col ∧ col < g.cols)

/-- `Grid.isCellOccupied` (`Grid.ts` lines 122-127): out of bounds counts
as occupied. -/
def isCellOccupied (g : Grid) (row col : Int) : Bool :=
  if g.isInBounds row col then (g.cells row col).isSome else true

/-- `Grid.getCellOccupant` (`Grid.ts` lines 132-137): `null` out of bounds. -/
def getCellOccupant (g : Grid) (row col : Int) : Option String :=
  if g.isInBounds row col then g.cells row col else none

/-- `Grid.setCellOccupied` (`Grid.ts` lines 142-146): writes only in bounds. -/
def setCellOccupied (g : Grid) (row col : Int) (occupant : String) : Grid :=
  if g.isInBounds row col then
    { g with cells := fun r c => if r = row ∧ c = col then some occupant else g.cells r c }
  else g

/-- `Grid.clearCell` (`Grid.ts` lines 151-155): clears only in bounds. -/
def clearCell (g : Grid) (row col : Int) : Grid :=
  if g.isInBounds row col then
    { g with cells := fun r c => if r = row ∧ c = col then none else g.cells r c }
  else g

/-- `Grid.clearEntity` (`Grid.ts` lines 160-168): scans the in-bounds
table and clears every cell referencing the given entity. -/
def clearEntity (g : Grid) (entity : String) : Grid :=
  { g with cells := fun r c =>
      if g.isInBounds r c ∧ g.cells r c = some entity then none else g.cells r c }

/-- `Grid.getWorldBounds` (`Grid.ts` lines 173-180): grid bounds, walls included. -/
def getWorldBounds (g : Grid) : Bounds :=
  { left := g.x
    right := g.x + g.wallThickness * 2 + g.cols * g.cellSize
    top := g.y
    bottom := g.y + g.wallThickness * 2 + g.rows * g.cellSize }

/-- `Grid.getPlayableBounds` (`Grid.ts` lines 185-192): the area inside the walls. -/
def getPlayableBounds (g : Grid) : Bounds :=
  { left := g.x + g.wallThickness
    right := g.x + g.wallThickness + g.cols * g.cellSize
    top := g.y + g.wallThickness
    bottom := g.y + g.wallThickness + g.rows * g.cellSize }

end Grid

/-- A block entity (`Block.ts`, class `Block`).  `shapeOffsets` are the
normalized offsets (shifted so their minimum row and column are zero),
`shapeOriginOffset` records the shift applied during normalization,
`gridPosition` keeps the pre-normalization reference cell, `(x, y)` is
the continuous container position, and `lastValidPosition` the rollback
anchor.  `cellSize` is the copy of the grid cell size taken at
construction.  Rendering-only state (graphics, drag pointer offset) is
omitted. -/
structure Block where
  id : String
  color : String
  shape : ShapeType
  gridPosition : GridPosition
  shapeOffsets : List CellOffset
  shapeOriginOffset : CellOffset
  isDragging : Bool
  lastValidPosition : GridPosition
  cellSize : ℚ
  x : ℚ
  y : ℚ
deriving DecidableEq, Repr

namespace Block

/-- `Block.getOccupiedCells` (`Block.ts` lines 504-510): normalized
offsets translated by the grid position, un-normalized via the origin
offset. -/
def getOccupiedCells (b : Block) : List GridPosition :=
  b.shapeOffsets.map fun offset =>
    ⟨b.gridPosition.row + offset.row + b.shapeOriginOffset.row,
     b.gridPosition.col + offset.col + b.shapeOriginOffset.col⟩

/-- `Block.getWorldBounds` (`Block.ts` lines 515-538): bounding box of
all occupied cells in continuous space, derived from the grid position. -/
def getWorldBounds (b : Block) (g : Grid) : Bounds :=
  let minRow := listMinI (b.shapeOffsets.map (·.row))
  let maxRow := listMaxI (b.shapeOffsets.map (·.row))
  let minCol := listMinI (b.shapeOffsets.map (·.col))
  let maxCol := listMaxI (b.shapeOffsets.map (·.col))
  let topLeft := g.gridToWorld (b.gridPosition.row + minRow + b.shapeOriginOffset.row)
    (b.gridPosition.col + minCol + b.shapeOriginOffset.col)
  { left := topLeft.x
    top := topLeft.y
    right := topLeft.x + (maxCol - minCol + 1) * b.cellSize
    bottom := topLeft.y + (maxRow - minRow + 1) * b.cellSize }

/-- `Block.getWorldCellPositionsAt` (`Block.ts` lines 544-561):
world-space bounding box of each shape cell at a candidate continuous
position. -/
def getWorldCellPositionsAt (b : Block) (worldX worldY : ℚ) : List Bounds :=
  b.shapeOffsets.map fun offset =>
    let cellWorldX := worldX + offset.col * b.cellSize
    let cellWorldY := worldY + offset.row * b.cellSize
    { left := cellWorldX
      top := cellWorldY
      right := cellWorldX + b.cellSize
      bottom := cellWorldY + b.cellSize }

/-- `Block.updateGridOccupancy` (`Block.ts` lines 566-574): clear every
cell referencing this block, then mark each occupied cell. -/
def updateGridOccupancy (b : Block) (g : Grid) : Grid :=
  b.getOccupiedCells.foldl (fun h cell => h.setCellOccupied cell.row cell.col b.id)
    (g.clearEntity b.id)

/-- `Block.setGridPosition` (`Block.ts` lines 587-597): update the
logical position, recompute the continuous position via the grid,
resynchronize occupancy, and record the last valid position. -/
def setGridPosition (b : Block) (g : Grid) (row col : Int) : Block × Grid :=
  let worldPos := g.gridToWorld (row + b.shapeOriginOffset.row) (col + b.shapeOriginOffset.col)
  let b1 : Block :=
    { b with gridPosition := ⟨row, col⟩, x := worldPos.x, y := worldPos.y,
             lastValidPosition := ⟨row, col⟩ }
  (b1, b1.updateGridOccupancy g)

/-- `Block.startDrag` (`Block.ts` lines 602-608): set the dragging flag
and clear this block's occupancy.  The pointer grab offset only feeds
the desired position of later moves and is omitted. -/
def startDrag (b : Block) (g : Grid) : Block × Grid :=
  ({ b with isDragging := true }, g.clearEntity b.id)

/-- `Block.updateDrag` (`Block.ts` lines 613-617): reposition the
continuous coordinates while dragging; occupancy is untouched. -/
def updateDrag (b : Block) (x y : ℚ) : Block :=
  if b.isDragging then { b with x := x, y := y } else b

/-- `Block.endDrag` (`Block.ts` lines 622-625): clear the flag only. -/
def endDrag (b : Block) : Block :=
  { b with isDragging := false }

end Block

/-- Data of the Block constructor call (`Block.ts`, interface `BlockConfig`). -/
structure BlockConfig where
  id : String
  color : String
  shape : ShapeType
  gridPosition : GridPosition

/-- The `Block` constructor (`Block.ts` lines 41-115): normalizes the
raw catalog offsets, records the origin offset, positions the container
at the top-left occupied cell, and marks its cells occupied.  No
validation of the initial position is performed. -/
def mkBlock (g : Grid) (cfg : BlockConfig) : Block × Grid :=
  let rawOffsets := getShapeOffsets cfg.shape
  let minRow := listMinI (rawOffsets.map (·.row))
  let minCol := listMinI (rawOffsets.map (·.col))
  let worldPos := g.gridToWorld (cfg.gridPosition.row + minRow) (cfg.gridPosition.col + minCol)
  let b : Block :=
    { id := cfg.id
      color := cfg.color
      shape := cfg.shape
      gridPosition := cfg.gridPosition
      shapeOffsets := rawOffsets.map fun o => ⟨o.row - minRow, o.col - minCol⟩
      shapeOriginOffset := ⟨minRow, minCol⟩
      isDragging := false
      lastValidPosition := cfg.gridPosition
      cellSize := g.cellSize
      x := worldPos.x
      y := worldPos.y }
  (b, b.updateGridOccupancy g)

/-- Perimeter side of an exit (`src/unnamed/part_001`, type `ExitSide`). -/
inductive ExitSide where
  | top | bottom | left | right
deriving DecidableEq, Repr

/-- An exit zone (`src/unnamed/part_001`, class `ExitZone`): color, side
and inclusive cell range along that side.  World bounds are derived from
grid geometry. -/
structure ExitZone where
  color : String
  side : ExitSide
  startCell : Int
  endCell : Int
deriving DecidableEq, Repr

namespace ExitZone

/-- `ExitZone.getWorldBounds` (`part_001` lines 58-96). -/
def getWorldBounds (e : ExitZone) (g : Grid) : Bounds :=
  let playable := g.getPlayableBounds
  let worldBounds := g.getWorldBounds
  let cellSize := g.cellSize
  match e.side with
  | .top =>
      { left := playable.left + e.startCell * cellSize
        right := playable.left + (e.endCell + 1) * cellSize
        top := worldBounds.top
        bottom := playable.top }
  | .bottom =>
      { left := playable.left + e.startCell * cellSize
        right := playable.left + (e.endCell + 1) * cellSize
        top := playable.bottom
        bottom := worldBounds.bottom }
  | .left =>
      { left := worldBounds.left
        right := playable.left
        top := playable.top + e.startCell * cellSize
        bottom := playable.top + (e.endCell + 1) * cellSize }
  | .right =>
      { left := playable.right
        right := worldBounds.right
        top := playable.top + e.startCell * cellSize
        bottom := playable.top + (e.endCell + 1) * cellSize }

/-- `ExitZone.canBlockFit` (`part_001` lines 101-117): the block's world
bounds must fit within the exit bounds along the relevant axis (width
for top/bottom exits, height for left/right exits). -/
def canBlockFit (e : ExitZone) (g : Grid) (blockBounds : Bounds) : Bool :=
  let exitBounds := e.getWorldBounds g
  match e.side with
  | .top | .bottom =>
      decide (blockBounds.left ≥ exitBounds.left ∧ blockBounds.right ≤ exitBounds.right)
  | .left | .right =>
      decide (blockBounds.top ≥ exitBounds.top ∧ blockBounds.bottom ≤ exitBounds.bottom)

/-- `ExitZone.isBlockAligned` (`part_001` lines 123-139): the block edge
facing the exit side must coincide with the exit's outward edge within
the tolerance. -/
def isBlockAligned (e : ExitZone) (g : Grid) (blockBounds : Bounds) (tolerance : ℚ) : Bool :=
  let exitBounds := e.getWorldBounds g
  match e.side with
  | .top => decide (|blockBounds.top - exitBounds.top| ≤ tolerance)
  | .bottom => decide (|blockBounds.bottom - exitBounds.bottom| ≤ tolerance)
  | .left => decide (|blockBounds.left - exitBounds.left| ≤ tolerance)
  | .right => decide (|blockBounds.right - exitBounds.right| ≤ tolerance)

end ExitZone

namespace CollisionDetector

/-- `CollisionDetector.isObstacle` (`CollisionDetector.ts` lines 397-399
and 103-105): membership in the static obstacle list. -/
def isObstacle (obstacles : List GridPosition) (row col : Int) : Bool :=
  obstacles.any fun obs => decide (obs.row = row ∧ obs.col = col)

/-- `CollisionDetector.canBlockMoveTo`, discrete version
(`CollisionDetector.ts` lines 366-392, identical in `part_005` lines
31-57): converts the candidate position to a grid cell and requires
every shape cell to be in bounds, unoccupied-or-self, and off the
obstacles.  The source loop returns `false` at the first failing cell;
with no side effects this is an `all` over the offsets. -/
def canBlockMoveTo (g : Grid) (obstacles : List GridPosition) (block : Block)
    (worldX worldY : ℚ) : Bool :=
  let gridPos := g.worldToGrid worldX worldY
  block.shapeOffsets.all fun offset =>
    let checkRow := gridPos.row + offset.row
    let checkCol := gridPos.col + offset.col
    g.isInBounds checkRow checkCol &&
      (match g.getCellOccupant checkRow checkCol with
       | some occupant => decide (occupant = block.id)
       | none => true) &&
      !(isObstacle obstacles checkRow checkCol)

/-- `CollisionDetector.getValidDragPosition`, sliding version
(`CollisionDetector.ts` lines 404-436): the implementation behind the
`getValidDragPositionWithSliding` call in `DragController.onDrag`
(`part_004` line 107).  Try the desired position, then X-only movement,
then Y-only movement, else stay. -/
def getValidDragPosition (g : Grid) (obstacles : List GridPosition) (block : Block)
    (desiredX desiredY currentX currentY : ℚ) : WorldPosition :=
  if canBlockMoveTo g obstacles block desiredX desiredY then ⟨desiredX, desiredY⟩
  else if |desiredX - currentX| > 0 ∧
      canBlockMoveTo g obstacles block (currentX + (desiredX - currentX)) currentY = true then
    ⟨currentX + (desiredX - currentX), currentY⟩
  else if |desiredY - currentY| > 0 ∧
      canBlockMoveTo g obstacles block currentX (currentY + (desiredY - currentY)) = true then
    ⟨currentX, currentY + (desiredY - currentY)⟩
  else ⟨currentX, currentY⟩

/-- `CollisionDetector.isValidGridPosition` (`CollisionDetector.ts`
lines 473-497, identical at 256-280 and in `part_005`): discrete
legality of a block placement; every shape cell must be in bounds,
unoccupied-or-self, and off the obstacles. -/
def isValidGridPosition (g : Grid) (obstacles : List GridPosition) (block : Block)
    (row col : Int) : Bool :=
  block.shapeOffsets.all fun offset =>
    let checkRow := row + offset.row
    let checkCol := col + offset.col
    g.isInBounds checkRow checkCol &&
      (match g.getCellOccupant checkRow checkCol with
       | some occupant => decide (occupant = block.id)
       | none => true) &&
      !(isObstacle obstacles checkRow checkCol)

/-- `n` consecutive integers counting up from `a`. -/
def intRangeAscGo (a : Int) : Nat → List Int
  | 0 => []
  | n + 1 => a :: intRangeAscGo (a + 1) n

/-- The ascending integer range `[a, a+1, ..., b]` (the iteration range
of a `for (let v = a; v <= b; v++)` loop). -/
def intRangeAsc (a b : Int) : List Int :=
  intRangeAscGo a (b - a + 1).toNat

/-- Inner `dCol` loop of the ring search in
`CollisionDetector.findNearestValidGridPosition` (`CollisionDetector.ts`
lines 452-462): tests only ring cells (`|dRow| = distance` or
`|dCol| = distance`) and returns the first legal position. -/
def ringColLoop (g : Grid) (obstacles : List GridPosition) (block : Block)
    (gp : GridPosition) (distance dRow : Int) : List Int → Option GridPosition
  | [] => none
  | dCol :: rest =>
    if |dRow| = distance ∨ |dCol| = distance then
      let testRow := gp.row + dRow
      let testCol := gp.col + dCol
      if isValidGridPosition g obstacles block testRow testCol then some ⟨testRow, testCol⟩
      else ringColLoop g obstacles block gp distance dRow rest
    else ringColLoop g obstacles block gp distance dRow rest

/-- Middle `dRow` loop of the ring search. -/
def ringRowLoop (g : Grid) (obstacles : List GridPosition) (block : Block)
    (gp : GridPosition) (distance : Int) : List Int → Option GridPosition
  | [] => none
  | dRow :: rest =>
    match ringColLoop g obstacles block gp distance dRow (intRangeAsc (-distance) distance) with
    | some p => some p
    | none => ringRowLoop g obstacles block gp distance rest

/-- Outer `distance` loop of the ring search. -/
def ringDistLoop (g : Grid) (obstacles : List GridPosition) (block : Block)
    (gp : GridPosition) : List Int → Option GridPosition
  | [] => none
  | distance :: rest =>
    match ringRowLoop g obstacles block gp distance (intRangeAsc (-distance) distance) with
    | some p => some p
    | none => ringDistLoop g obstacles block gp rest

/-- `CollisionDetector.findNearestValidGridPosition`
(`CollisionDetector.ts` lines 441-468, identical at 224-251 and in
`part_005`): convert to the containing grid cell, return it if legal,
else search square rings of radius 1..3 and return the first legal
position in iteration order. -/
def findNearestValidGridPosition (g : Grid) (obstacles : List GridPosition) (block : Block)
    (worldX worldY : ℚ) : Option GridPosition :=
  let gridPos := g.worldToGrid worldX worldY
  if isValidGridPosition g obstacles block gridPos.row gridPos.col then some gridPos
  else ringDistLoop g obstacles block gridPos [1, 2, 3]

/-- Loop body of `CollisionDetector.checkExitCondition`
(`CollisionDetector.ts` lines 285-308): first exit in declared order
whose color matches case-insensitively, whose bounds fit the block, and
to whose outward edge the block is aligned within half a cell. -/
def checkExitLoop (g : Grid) (block : Block) (blockBounds : Bounds) :
    List ExitZone → Option ExitZone
  | [] => none
  | e :: rest =>
    if e.color.toLower = block.color.toLower then
      if e.canBlockFit g blockBounds then
        if e.isBlockAligned g blockBounds (g.cellSize * (1 / 2)) then some e
        else checkExitLoop g block blockBounds rest
      else checkExitLoop g block blockBounds rest
    else checkExitLoop g block blockBounds rest

/-- `CollisionDetector.checkExitCondition` (`CollisionDetector.ts`
lines 285-308; the `part_005` copy differs only in logging). -/
def checkExitCondition (g : Grid) (block : Block) (exitZones : List ExitZone) :
    Option ExitZone :=
  checkExitLoop g block (block.getWorldBounds g) exitZones

end CollisionDetector

namespace CollisionDetector

/-- Minimum of a list of rationals (`Math.min` fold; the source starts
from `Infinity`, we default to `0` on the empty list, which only the
degenerate zero-cell shape would hit). -/
def listMinQ : List ℚ → ℚ
  | [] => 0
  | a :: t => t.foldl min a

/-- Maximum of a list of rationals (`Math.max` fold, default `0` on `[]`). -/
def listMaxQ : List ℚ → ℚ
  | [] => 0
  | a :: t => t.foldl max a

/-- `CollisionDetector.calculateAABB` (`CollisionDetector.ts` lines
110-127): bounding box of a list of cell rectangles. -/
def calculateAABB (cells : List Bounds) : Bounds :=
  { left := listMinQ (cells.map (·.left))
    top := listMinQ (cells.map (·.top))
    right := listMaxQ (cells.map (·.right))
    bottom := listMaxQ (cells.map (·.bottom)) }

/-- `CollisionDetector.aabbsOverlap` (`CollisionDetector.ts` lines 132-135). -/
def aabbsOverlap (a b : Bounds) : Bool :=
  !(decide (a.right < b.left) || decide (a.left > b.right) ||
    decide (a.bottom < b.top) || decide (a.top > b.bottom))

/-- `CollisionDetector.boundsOverlap` (`CollisionDetector.ts` lines
155-160): rectangle overlap with the collision buffer shrunk from each
side. -/
def boundsOverlap (a b : Bounds) (buffer : ℚ) : Bool :=
  !(decide (a.right - buffer < b.left + buffer) ||
    decide (a.left + buffer > b.right - buffer) ||
    decide (a.bottom - buffer < b.top + buffer) ||
    decide (a.top + buffer > b.bottom - buffer))

/-- `CollisionDetector.cellsOverlap` (`CollisionDetector.ts` lines 140-149). -/
def cellsOverlap (cells1 cells2 : List Bounds) (buffer : ℚ) : Bool :=
  cells1.any fun cell1 => cells2.any fun cell2 => boundsOverlap cell1 cell2 buffer

/-- `CollisionDetector.getObstacleCellBounds` (`CollisionDetector.ts`
lines 165-173). -/
def getObstacleCellBounds (g : Grid) (row col : Int) : Bounds :=
  let worldPos := g.gridToWorld row col
  { left := worldPos.x
    top := worldPos.y
    right := worldPos.x + g.cellSize
    bottom := worldPos.y + g.cellSize }

/-- The collision buffer constant of the swept `canBlockMoveTo`
(`CollisionDetector.ts` line 36, `COLLISION_BUFFER = 2`). -/
def COLLISION_BUFFER : ℚ := 2

/-- The 3×3 neighborhood iteration order of the occupancy scan in the
swept `canBlockMoveTo` (`dr` outer loop, `dc` inner loop, each -1..1). -/
def neighborhood : List (Int × Int) :=
  [(-1, -1), (-1, 0), (-1, 1), (0, -1), (0, 0), (0, 1), (1, -1), (1, 0), (1, 1)]

/-- One neighborhood iteration of the swept `canBlockMoveTo`
(`CollisionDetector.ts` lines 59-94): occupant lookup with the
checked-blocks set, AABB fast rejection, exact cell-overlap test, then
the obstacle test.  `none` signals a detected collision (`return
false`), `some checked` the updated checked set.  The table stores ids;
`blocks` resolves them to the live block the source references. -/
def checkNeighbor (g : Grid) (obstacles : List GridPosition) (blocks : List Block)
    (block : Block) (draggedCells : List Bounds) (draggedAABB draggedCell : Bounds)
    (checked : List String) (checkRow checkCol : Int) : Option (List String) :=
  if g.isInBounds checkRow checkCol then
    let afterBlocks : Option (List String) :=
      match g.getCellOccupant checkRow checkCol with
      | some occId =>
        if occId ≠ block.id ∧ occId ∉ checked then
          match blocks.find? fun c => c.id = occId with
          | some occupant =>
            if aabbsOverlap draggedAABB (occupant.getWorldBounds g) then
              if cellsOverlap draggedCells
                  (occupant.getWorldCellPositionsAt occupant.x occupant.y)
                  COLLISION_BUFFER then
                none
              else some (occId :: checked)
            else some (occId :: checked)
          | none => some (occId :: checked)
        else some checked
      | none => some checked
    match afterBlocks with
    | none => none
    | some checked1 =>
      if isObstacle obstacles checkRow checkCol then
        if boundsOverlap draggedCell (getObstacleCellBounds g checkRow checkCol)
            COLLISION_BUFFER then
          none
        else some checked1
      else some checked1
  else some checked

/-- The 3×3 neighborhood loop around one dragged cell. -/
def neighborLoop (g : Grid) (obstacles : List GridPosition) (blocks : List Block)
    (block : Block) (draggedCells : List Bounds) (draggedAABB draggedCell : Bounds)
    (gp : GridPosition) (checked : List String) :
    List (Int × Int) → Option (List String)
  | [] => some checked
  | (dr, dc) :: rest =>
    match checkNeighbor g obstacles blocks block draggedCells draggedAABB draggedCell
        checked (gp.row + dr) (gp.col + dc) with
    | none => none
    | some checked1 =>
      neighborLoop g obstacles blocks block draggedCells draggedAABB draggedCell
        gp checked1 rest

/-- The grid cell containing the center of a cell rectangle (the
`centerX`/`centerY`/`gridPos` computation of `canBlockMoveTo`,
`CollisionDetector.ts` lines 49-51). -/
def cellCenterGridPos (g : Grid) (draggedCell : Bounds) : GridPosition :=
  g.worldToGrid ((draggedCell.left + draggedCell.right) / 2)
    ((draggedCell.top + draggedCell.bottom) / 2)

/-- The outer per-dragged-cell loop of the swept `canBlockMoveTo`
(`CollisionDetector.ts` lines 47-95): reject when the grid cell holding
the cell's center is out of bounds, then scan the 3×3 neighborhood. -/
def cellLoop (g : Grid) (obstacles : List GridPosition) (blocks : List Block)
    (block : Block) (draggedCells : List Bounds) (draggedAABB : Bounds)
    (checked : List String) : List Bounds → Bool
  | [] => true
  | draggedCell :: rest =>
    if g.isInBounds (cellCenterGridPos g draggedCell).row
        (cellCenterGridPos g draggedCell).col then
      match neighborLoop g obstacles blocks block draggedCells draggedAABB draggedCell
          (cellCenterGridPos g draggedCell) checked neighborhood with
      | none => false
      | some checked1 =>
        cellLoop g obstacles blocks block draggedCells draggedAABB checked1 rest
    else false

/-- `CollisionDetector.canBlockMoveTo`, swept/AABB version
(`CollisionDetector.ts` lines 35-98): legality of a candidate
continuous position via per-cell world rectangles, occupancy
neighborhood scan with AABB fast rejection and buffered exact overlap
tests, and buffered obstacle overlap tests. -/
def canBlockMoveToSwept (g : Grid) (obstacles : List GridPosition) (blocks : List Block)
    (block : Block) (worldX worldY : ℚ) : Bool :=
  let draggedCells := block.getWorldCellPositionsAt worldX worldY
  let draggedAABB := calculateAABB draggedCells
  cellLoop g obstacles blocks block draggedCells draggedAABB [] draggedCells

end CollisionDetector

/-- The level state the drag controller orchestrates
(`src/unnamed/part_003`, `GameScene.create`, and `src/unnamed/part_004`,
class `DragController`): the shared grid, the live block list, the
static obstacle list, the level's exit zones, and the controller's
`activeBlock` reference (by id). -/
structure GameState where
  grid : Grid
  blocks : List Block
  obstacles : List GridPosition
  exitZones : List ExitZone
  active : Option String

/-- Replace the entry of a block (identified by id) in the block list;
the functional rendering of mutating the object the list references. -/
def updateBlockList (blocks : List Block) (b : Block) : List Block :=
  blocks.map fun c => if c.id = b.id then b else c

/-- Outcome of `DragController.onDragEnd`: the successor state, whether
the move-completed event fired, and the removed block, when one exited. -/
structure DragEndResult where
  state : GameState
  moveCompleted : Bool
  removedBlock : Option Block

/-- The block as `DragController.onDragEnd` sees it during the exit
check (`part_004` lines 125-132): drag flag cleared, grid position
temporarily replaced by the one implied by the continuous coordinates. -/
def dragEndTempBlock (s : GameState) (b : Block) : Block :=
  { b.endDrag with gridPosition := s.grid.worldToGrid b.endDrag.x b.endDrag.y }

/-- The block after the saved grid position is restored
(`part_004` line 157). -/
def dragEndRestoredBlock (s : GameState) (b : Block) : Block :=
  { dragEndTempBlock s b with gridPosition := b.endDrag.gridPosition }

/-- `DragController.onDragEnd` (`part_004` lines 122-178): end the drag,
temporarily adopt the grid position implied by the continuous
coordinates for the exit check; on a matching exit remove the block;
otherwise restore the saved grid position and either snap to the
nearest legal grid cell (firing move-completed) or revert to the last
known valid position. -/
def onDragEnd (s : GameState) (b : Block) : DragEndResult :=
  if b.isDragging then
    match CollisionDetector.checkExitCondition s.grid (dragEndTempBlock s b) s.exitZones with
    | some _ =>
      { state := { s with grid := s.grid.clearEntity b.id
                          blocks := s.blocks.filter fun c => c.id ≠ b.id
                          active := none }
        moveCompleted := false
        removedBlock := some (dragEndTempBlock s b) }
    | none =>
      match CollisionDetector.findNearestValidGridPosition s.grid s.obstacles
          (dragEndRestoredBlock s b) (dragEndRestoredBlock s b).x
          (dragEndRestoredBlock s b).y with
      | some p =>
        { state := { s with
            grid := ((dragEndRestoredBlock s b).setGridPosition s.grid p.row p.col).2
            blocks := updateBlockList s.blocks
              ((dragEndRestoredBlock s b).setGridPosition s.grid p.row p.col).1
            active := none }
          moveCompleted := true
          removedBlock := none }
      | none =>
        { state := { s with
            grid := ((dragEndRestoredBlock s b).setGridPosition s.grid
              (dragEndRestoredBlock s b).lastValidPosition.row
              (dragEndRestoredBlock s b).lastValidPosition.col).2
            blocks := updateBlockList s.blocks
              ((dragEndRestoredBlock s b).setGridPosition s.grid
                (dragEndRestoredBlock s b).lastValidPosition.row
                (dragEndRestoredBlock s b).lastValidPosition.col).1
            active := none }
          moveCompleted := false
          removedBlock := none }
  else { state := s, moveCompleted := false, removedBlock := none }

/-- Effect of constructing a block into the running level
(`GameScene.create`, `part_003` lines 409-420: `new Block(...)` followed
by pushing it onto the block list). -/
def applyConstruct (s : GameState) (cfg : BlockConfig) : GameState :=
  let made := mkBlock s.grid cfg
  { s with grid := made.2, blocks := s.blocks ++ [made.1] }

/-- Effect of `DragController.onDragStart` (`part_004` lines 79-90):
record the active block and start its drag. -/
def applyStartDrag (s : GameState) (b : Block) : GameState :=
  let started := b.startDrag s.grid
  { s with grid := started.2
           blocks := updateBlockList s.blocks started.1
           active := some b.id }

/-- Effect of `DragController.onDrag` (`part_004` lines 95-117) on the
state: the active block's continuous position is replaced by whatever
position the drag-resolution function returned; the step relation below
quantifies over that position, which covers every possible resolution
result. -/
def applyDragMove (s : GameState) (b : Block) (x y : ℚ) : GameState :=
  { s with blocks := updateBlockList s.blocks (b.updateDrag x y) }

/-- One transition of the drag lifecycle, as dispatched by the single
pointer input stream of the scene (`DragController` registers
pointerdown / pointermove / pointerup handlers; `activeBlock` makes one
block at a time the target of moves and drag-ends, so a drag starts
only when no other drag is active).  Blocks are constructed by
`GameScene.create` at level load, before any pointer input, hence with
no active drag.  When `checked` is `true`, block construction carries
the load-time validity check the specification prescribes; with
`checked = false` construction is unvalidated, exactly as
`GameScene.create` behaves. -/
inductive Step (checked : Bool) : GameState → GameState → Prop
  | construct (s : GameState) (cfg : BlockConfig)
      (hquiet : s.active = none)
      (hfresh : cfg.id ∉ s.blocks.map Block.id)
      (hvalid : checked = true →
        CollisionDetector.isValidGridPosition s.grid s.obstacles (mkBlock s.grid cfg).1
          cfg.gridPosition.row cfg.gridPosition.col = true) :
      Step checked s (applyConstruct s cfg)
  | startDrag (s : GameState) (b : Block) (hb : b ∈ s.blocks)
      (hactive : s.active = none) :
      Step checked s (applyStartDrag s b)
  | dragMove (s : GameState) (b : Block) (x y : ℚ) (hb : b ∈ s.blocks)
      (hactive : s.active = some b.id) (hdrag : b.isDragging = true) :
      Step checked s (applyDragMove s b x y)
  | dragEnd (s : GameState) (b : Block) (hb : b ∈ s.blocks)
      (hactive : s.active = some b.id) :
      Step checked s (onDragEnd s b).state

/-- The empty level state right after grid creation: empty occupancy
table, no blocks yet, the static obstacle and exit lists. -/
def initState (rows cols : Int) (cellSize gx gy wall : ℚ)
    (obstacles : List GridPosition) (exitZones : List ExitZone) : GameState :=
  { grid := { rows := rows, cols := cols, cellSize := cellSize, x := gx, y := gy,
              wallThickness := wall, cells := fun _ _ => none }
    blocks := []
    obstacles := obstacles
    exitZones := exitZones
    active := none }

/-- States reachable from a given state through the drag lifecycle. -/
def Reachable (checked : Bool) (s0 s : GameState) : Prop :=
  Relation.ReflTransGen (Step checked) s0 s

/-! ## Specification-side definitions used by the statements -/

/-- The three conditions of the specification for an exit to accept a
block: case-insensitive color match, fit along the relevant axis, and
alignment to the outward edge within half a cell. -/
def exitMatches (g : Grid) (block : Block) (blockBounds : Bounds) (e : ExitZone) : Bool :=
  (e.color.toLower == block.color.toLower) && e.canBlockFit g blockBounds &&
    e.isBlockAligned g blockBounds (g.cellSize * (1 / 2))

/-- The cells of the square ring of the given radius around a center,
visited in row-major order (rows ascending, columns ascending within
each row), as the specification describes the search pattern. -/
def ringCells (gp : GridPosition) (distance : Int) : List GridPosition :=
  (CollisionDetector.intRangeAsc (-distance) distance).flatMap fun dRow =>
    (CollisionDetector.intRangeAsc (-distance) distance).filterMap fun dCol =>
      if |dRow| = distance ∨ |dCol| = distance then
        some ⟨gp.row + dRow, gp.col + dCol⟩
      else none

/-- The search sequence the specification describes for
`findNearestValidGridPosition`: the center cell first, then the square
rings of radius 1, 2, 3 in that order, each in row-major order. -/
def searchCandidates (gp : GridPosition) : List GridPosition :=
  gp :: ([1, 2, 3] : List Int).flatMap (ringCells gp)

/-- Legality predicate of the ring search, as a Boolean on positions. -/
def validAt (g : Grid) (obstacles : List GridPosition) (block : Block)
    (p : GridPosition) : Bool :=
  CollisionDetector.isValidGridPosition g obstacles block p.row p.col

/-- One rectangle lying entirely inside another — the specification's
"does not extend outside" relation between a cell rectangle and the
playable area. -/
def boundsWithin (inner outer : Bounds) : Prop :=
  outer.left ≤ inner.left ∧ inner.right ≤ outer.right ∧
    outer.top ≤ inner.top ∧ inner.bottom ≤ outer.bottom

instance (inner outer : Bounds) : Decidable (boundsWithin inner outer) :=
  inferInstanceAs (Decidable (outer.left ≤ inner.left ∧ inner.right ≤ outer.right ∧
    outer.top ≤ inner.top ∧ inner.bottom ≤ outer.bottom))

/-! ## Concrete fixtures used to evaluate the theorems -/

/-- An empty 2×2 grid with 40-pixel cells and 10-pixel walls, used to
evaluate the theorems on concrete inputs. -/
def testGrid : Grid where
  rows := 2
  cols := 2
  cellSize := 40
  x := 0
  y := 0
  wallThickness := 10
  cells := fun _ _ => none

/-- A 1×1 block used to evaluate the theorems on concrete inputs. -/
def testBlock : Block where
  id := "b1"
  color := "blue"
  shape := .r1x1
  gridPosition := ⟨0, 0⟩
  shapeOffsets := [⟨0, 0⟩]
  shapeOriginOffset := ⟨0, 0⟩
  isDragging := false
  lastValidPosition := ⟨0, 0⟩
  cellSize := 40
  x := 10
  y := 10

/-- A 2×2 grid whose eastern column is filled with obstacles. -/
def testObstacles : List GridPosition := [⟨0, 1⟩, ⟨1, 1⟩]

/-- An empty 1×1 grid used for the drag-end soft-failure scenario. -/
def testGridSmall : Grid where
  rows := 1
  cols := 1
  cellSize := 40
  x := 0
  y := 0
  wallThickness := 10
  cells := fun _ _ => none

/-- The test block mid-drag. -/
def testDragBlock : Block :=
  { testBlock with isDragging := true }

/-- A level whose sole cell is an obstacle, with the test block
mid-drag: no grid position is legal for the block, so a drag end must
take the revert path. -/
def testStuckState : GameState where
  grid := testGridSmall
  blocks := [testDragBlock]
  obstacles := [⟨0, 0⟩]
  exitZones := []
  active := some "b1"

/-! ## The no-overlap invariant and its strengthening -/

/-- The specification's no-overlap invariant: any two distinct
non-dragging blocks occupy disjoint cell sets, and no non-dragging
block's occupied-cell set meets the obstacle set. -/
def NoOverlap (s : GameState) : Prop :=
  (∀ b ∈ s.blocks, b.isDragging = false → ∀ c ∈ s.blocks, c.id ≠ b.id →
    c.isDragging = false → ∀ p ∈ b.getOccupiedCells, p ∉ c.getOccupiedCells) ∧
  (∀ b ∈ s.blocks, b.isDragging = false → ∀ p ∈ b.getOccupiedCells, p ∉ s.obstacles)

/-- The inductive strengthening of the no-overlap invariant: occupancy
synchronization for non-dragging blocks, cleared occupancy for dragging
blocks, validity of the rollback anchor of the active block, and the
bookkeeping facts (distinct ids, zero origin offsets from the catalog,
no stray table entries) that the drag lifecycle maintains. -/
structure FullInv (s : GameState) : Prop where
  oobEmpty : ∀ r c, s.grid.isInBounds r c = false → s.grid.cells r c = none
  nodupIds : (s.blocks.map Block.id).Nodup
  originZero : ∀ b ∈ s.blocks, b.shapeOriginOffset = ⟨0, 0⟩
  sync : ∀ b ∈ s.blocks, b.isDragging = false →
    ∀ r c, s.grid.cells r c = some b.id ↔ (⟨r, c⟩ : GridPosition) ∈ b.getOccupiedCells
  noObst : ∀ b ∈ s.blocks, b.isDragging = false →
    ∀ p ∈ b.getOccupiedCells, p ∉ s.obstacles
  dragClear : ∀ b ∈ s.blocks, b.isDragging = true →
    ∀ r c, s.grid.cells r c ≠ some b.id
  lastEq : ∀ b ∈ s.blocks, b.isDragging = false →
    b.lastValidPosition = b.gridPosition
  activeLast : ∀ b ∈ s.blocks, s.active = some b.id →
    ∀ o ∈ b.shapeOffsets,
      s.grid.isInBounds (b.lastValidPosition.row + o.row + b.shapeOriginOffset.row)
        (b.lastValidPosition.col + o.col + b.shapeOriginOffset.col) = true ∧
      (⟨b.lastValidPosition.row + o.row + b.shapeOriginOffset.row,
        b.lastValidPosition.col + o.col + b.shapeOriginOffset.col⟩ : GridPosition) ∉
          s.obstacles ∧
      s.grid.cells (b.lastValidPosition.row + o.row + b.shapeOriginOffset.row)
        (b.lastValidPosition.col + o.col + b.shapeOriginOffset.col) = none
  draggingActive : ∀ b ∈ s.blocks, b.isDragging = true → s.active = some b.id
  tableIds : ∀ r c occ, s.grid.cells r c = some occ → ∃ d ∈ s.blocks, d.id = occ

/-- Two overlapping constructions on an empty level: level data the
unvalidated loader accepts. -/
def overlapState : GameState :=
  applyConstruct (applyConstruct (initState 2 2 40 0 0 10 [] [])
    ⟨"a", "red", .r1x1, ⟨0, 0⟩⟩) ⟨"b", "blue", .r1x1, ⟨0, 0⟩⟩

/-- One validly constructed block on an empty level. -/
def oneBlockState : GameState :=
  applyConstruct (initState 2 2 40 0 0 10 [] []) ⟨"a", "red", .r1x1, ⟨0, 0⟩⟩

unseal Rat.add Rat.sub Rat.mul Rat.inv

/-! ## Basic facts about the occupancy table -/

namespace Grid

theorem ext_cells {g h : Grid} (hr : g.rows = h.rows) (hc : g.cols = h.cols)
    (hs : g.cellSize = h.cellSize) (hx : g.x = h.x) (hy : g.y = h.y)
    (hw : g.wallThickness = h.wallThickness)
    (hcells : ∀ r c, g.cells r c = h.cells r c) : g = h := by
  cases g; cases h
  simp only [mk.injEq]
  exact ⟨hr, hc, hs, hx, hy, hw, funext fun r => funext fun c => hcells r c⟩

theorem rows_setCellOccupied (g : Grid) (row col : Int) (occupant : String) :
    (g.setCellOccupied row col occupant).rows = g.rows := by
  unfold setCellOccupied
  split <;> rfl

theorem cols_setCellOccupied (g : Grid) (row col : Int) (occupant : String) :
    (g.setCellOccupied row col occupant).cols = g.cols := by
  unfold setCellOccupied
  split <;> rfl

theorem isInBounds_setCellOccupied (g : Grid) (row col : Int) (occupant : String)
    (r c : Int) :
    (g.setCellOccupied row col occupant).isInBounds r c = g.isInBounds r c := by
  unfold isInBounds
  rw [rows_setCellOccupied, cols_setCellOccupied]

theorem cells_setCellOccupied (g : Grid) (row col : Int) (occupant : String) (r c : Int) :
    (g.setCellOccupied row col occupant).cells r c =
      if g.isInBounds row col = true ∧ r = row ∧ c = col then some occupant
      else g.cells r c := by
  unfold setCellOccupied
  by_cases hb : g.isInBounds row col = true
  · rw [if_pos hb]
    by_cases hrc : r = row ∧ c = col
    · simp [hrc, hb]
    · simp [hrc, hb]
  · rw [if_neg hb]
    simp [hb]

theorem isInBounds_clearEntity (g : Grid) (entity : String) (r c : Int) :
    (g.clearEntity entity).isInBounds r c = g.isInBounds r c := rfl

theorem cells_clearEntity (g : Grid) (entity : String) (r c : Int) :
    (g.clearEntity entity).cells r c =
      if g.isInBounds r c = true ∧ g.cells r c = some entity then none
      else g.cells r c := by
  show (if g.isInBounds r c ∧ g.cells r c = some entity then none else g.cells r c) = _
  by_cases h : g.isInBounds r c = true ∧ g.cells r c = some entity
  · rw [if_pos h]
  · rw [if_neg h]

/-- `setCellOccupied` folded over a list of cells rewrites exactly the
in-bounds cells of the list and nothing else. -/
theorem foldl_setCellOccupied (L : List GridPosition) (g : Grid) (entity : String) :
    L.foldl (fun h cell => h.setCellOccupied cell.row cell.col entity) g =
      { g with cells := fun r c =>
          if g.isInBounds r c = true ∧ (⟨r, c⟩ : GridPosition) ∈ L then some entity
          else g.cells r c } := by
  induction L generalizing g with
  | nil =>
    cases g
    simp
  | cons hd tl ih =>
    rw [List.foldl_cons, ih]
    apply ext_cells
    · exact rows_setCellOccupied ..
    · exact cols_setCellOccupied ..
    · unfold setCellOccupied
      split <;> rfl
    · unfold setCellOccupied
      split <;> rfl
    · unfold setCellOccupied
      split <;> rfl
    · unfold setCellOccupied
      split <;> rfl
    · intro r c
      show (if (g.setCellOccupied hd.row hd.col entity).isInBounds r c = true ∧
          (⟨r, c⟩ : GridPosition) ∈ tl then some entity
        else (g.setCellOccupied hd.row hd.col entity).cells r c) = _
      rw [isInBounds_setCellOccupied, cells_setCellOccupied]
      by_cases hinB : g.isInBounds r c = true
      · by_cases htl : (⟨r, c⟩ : GridPosition) ∈ tl
        · simp [hinB, htl, List.mem_cons]
        · by_cases hhd : (⟨r, c⟩ : GridPosition) = hd
          · have hr : r = hd.row := by rw [← hhd]
            have hc : c = hd.col := by rw [← hhd]
            have hbb : g.isInBounds hd.row hd.col = true := by
              rw [← hr, ← hc]; exact hinB
            simp [hinB, htl, hhd, hbb, ← hr, ← hc, List.mem_cons]
          · have hx : ¬(r = hd.row ∧ c = hd.col) := by
              intro hx
              apply hhd
              cases hd
              simpa using hx
            simp [hinB, htl, hhd, hx, List.mem_cons]
      · by_cases hx : r = hd.row ∧ c = hd.col
        · obtain ⟨hr, hc⟩ := hx
          rw [← hr, ← hc]
          simp [hinB]
        · simp [hinB, hx]

end Grid

/-- Description of the table after `Block.updateGridOccupancy`: the
block's in-bounds occupied cells hold the block, its stale in-bounds
cells are cleared, everything else is untouched. -/
theorem Block.cells_updateGridOccupancy (b : Block) (g : Grid) (r c : Int) :
    (b.updateGridOccupancy g).cells r c =
      if g.isInBounds r c = true ∧ (⟨r, c⟩ : GridPosition) ∈ b.getOccupiedCells then
        some b.id
      else if g.isInBounds r c = true ∧ g.cells r c = some b.id then none
      else g.cells r c := by
  unfold updateGridOccupancy
  rw [Grid.foldl_setCellOccupied]
  show (if (g.clearEntity b.id).isInBounds r c = true ∧
      (⟨r, c⟩ : GridPosition) ∈ b.getOccupiedCells then some b.id
    else (g.clearEntity b.id).cells r c) = _
  rw [Grid.isInBounds_clearEntity, Grid.cells_clearEntity]

/-- Geometry fields survive `updateGridOccupancy`. -/
theorem Block.geom_updateGridOccupancy (b : Block) (g : Grid) :
    (b.updateGridOccupancy g).rows = g.rows ∧ (b.updateGridOccupancy g).cols = g.cols ∧
    (b.updateGridOccupancy g).cellSize = g.cellSize ∧ (b.updateGridOccupancy g).x = g.x ∧
    (b.updateGridOccupancy g).y = g.y ∧
    (b.updateGridOccupancy g).wallThickness = g.wallThickness := by
  unfold updateGridOccupancy
  rw [Grid.foldl_setCellOccupied]
  exact ⟨rfl, rfl, rfl, rfl, rfl, rfl⟩

theorem Block.isInBounds_updateGridOccupancy (b : Block) (g : Grid) (r c : Int) :
    (b.updateGridOccupancy g).isInBounds r c = g.isInBounds r c := by
  unfold Grid.isInBounds
  obtain ⟨h1, h2, _, _, _, _⟩ := b.geom_updateGridOccupancy g
  rw [h1, h2]

theorem Block.gridToWorld_updateGridOccupancy (b : Block) (g : Grid) (r c : Int) :
    (b.updateGridOccupancy g).gridToWorld r c = g.gridToWorld r c := by
  unfold Grid.gridToWorld
  obtain ⟨_, _, h3, h4, h5, h6⟩ := b.geom_updateGridOccupancy g
  rw [h3, h4, h5, h6]

/-- Resynchronizing the same block's occupancy twice is the same as
doing it once. -/
theorem Block.updateGridOccupancy_idem (b : Block) (g : Grid) :
    b.updateGridOccupancy (b.updateGridOccupancy g) = b.updateGridOccupancy g := by
  apply Grid.ext_cells
  · exact (b.geom_updateGridOccupancy _).1
  · exact (b.geom_updateGridOccupancy _).2.1
  · exact (b.geom_updateGridOccupancy _).2.2.1
  · exact (b.geom_updateGridOccupancy _).2.2.2.1
  · exact (b.geom_updateGridOccupancy _).2.2.2.2.1
  · exact (b.geom_updateGridOccupancy _).2.2.2.2.2
  · intro r c
    rw [Block.cells_updateGridOccupancy, Block.isInBounds_updateGridOccupancy,
      Block.cells_updateGridOccupancy]
    by_cases hin : g.isInBounds r c = true
    · by_cases hmem : (⟨r, c⟩ : GridPosition) ∈ b.getOccupiedCells
      · simp [hin, hmem]
      · by_cases hcell : g.cells r c = some b.id
        · simp [hin, hmem, hcell]
        · simp [hin, hmem, hcell]
    · simp [hin]

/-! ## C10 — totality and out-of-bounds behavior of the occupancy accessors -/

/-- C10: for every integer coordinate pair outside
`[0, rows) × [0, cols)`, `getCellOccupant` returns `null` while
`isCellOccupied` reports the cell as occupied, and `setCellOccupied`
and `clearCell` leave the grid (in particular the occupancy table)
completely unchanged.  All four accessors are total functions of their
integer inputs. -/
theorem grid_accessors_out_of_bounds (g : Grid) (row col : Int)
    (h : g.isInBounds row col = false) :
    g.getCellOccupant row col = none ∧
    g.isCellOccupied row col = true ∧
    (∀ occupant : String, g.setCellOccupied row col occupant = g) ∧
    g.clearCell row col = g := by
  refine ⟨?_, ?_, ?_, ?_⟩
  · unfold Grid.getCellOccupant
    simp [h]
  · unfold Grid.isCellOccupied
    simp [h]
  · intro occupant
    unfold Grid.setCellOccupied
    simp [h]
  · unfold Grid.clearCell
    simp [h]

/-- Witness for C10 at a concrete grid and the out-of-range cell (-1, 0). -/
theorem grid_accessors_out_of_bounds_witness :
    testGrid.isInBounds (-1) 0 = false ∧
    testGrid.getCellOccupant (-1) 0 = none ∧
    testGrid.isCellOccupied (-1) 0 = true ∧
    testGrid.clearCell (-1) 0 = testGrid := by
  have h : testGrid.isInBounds (-1) 0 = false := by decide
  obtain ⟨h1, h2, _, h4⟩ := grid_accessors_out_of_bounds testGrid (-1) 0 h
  exact ⟨h, h1, h2, h4⟩

/-! ## C9 — idempotence of `setGridPosition` -/

/-- C9: calling `setGridPosition` twice in succession with the same
arguments leaves the block (grid position, world position,
`lastValidPosition`) and the grid occupancy table in exactly the state
one call produces. -/
theorem setGridPosition_idempotent (b : Block) (g : Grid) (row col : Int) :
    ((b.setGridPosition g row col).1).setGridPosition ((b.setGridPosition g row col).2)
        row col =
      b.setGridPosition g row col := by
  simp only [Block.setGridPosition, Block.gridToWorld_updateGridOccupancy]
  rw [Block.updateGridOccupancy_idem]

/-! ## C3 — bounds handling of the swept `canBlockMoveTo` -/

/-- If the per-cell scan of the swept `canBlockMoveTo` accepts, then
every dragged cell's center lies in an in-bounds grid cell. -/
theorem cellLoop_centers_in_bounds (g : Grid) (obstacles : List GridPosition)
    (blocks : List Block) (block : Block) (draggedCells : List Bounds)
    (draggedAABB : Bounds) (cells : List Bounds) :
    ∀ checked : List String,
      CollisionDetector.cellLoop g obstacles blocks block draggedCells draggedAABB
        checked cells = true →
      ∀ cell ∈ cells,
        g.isInBounds (CollisionDetector.cellCenterGridPos g cell).row
          (CollisionDetector.cellCenterGridPos g cell).col = true := by
  induction cells with
  | nil =>
    intro checked _ cell hc
    exact absurd hc (List.not_mem_nil cell)
  | cons hd tl ih =>
    intro checked h cell hc
    unfold CollisionDetector.cellLoop at h
    by_cases hin : g.isInBounds (CollisionDetector.cellCenterGridPos g hd).row
        (CollisionDetector.cellCenterGridPos g hd).col = true
    · rw [if_pos hin] at h
      rcases List.mem_cons.mp hc with rfl | htl
      · exact hin
      · cases hnl : CollisionDetector.neighborLoop g obstacles blocks block draggedCells
            draggedAABB hd (CollisionDetector.cellCenterGridPos g hd) checked
            CollisionDetector.neighborhood with
        | none =>
          rw [hnl] at h
          exact absurd h (by simp)
        | some checked1 =>
          rw [hnl] at h
          exact ih checked1 h cell htl
    · rw [if_neg hin] at h
      exact absurd h (by simp)

/-- C3 (amended): the swept `canBlockMoveTo` rejects a candidate
position whenever the grid cell containing the center of one of the
block's cell rectangles is out of bounds. -/
theorem canBlockMoveToSwept_rejects_oob_center (g : Grid)
    (obstacles : List GridPosition) (blocks : List Block) (block : Block)
    (worldX worldY : ℚ)
    (h : ∃ cell ∈ block.getWorldCellPositionsAt worldX worldY,
      g.isInBounds (CollisionDetector.cellCenterGridPos g cell).row
        (CollisionDetector.cellCenterGridPos g cell).col = false) :
    CollisionDetector.canBlockMoveToSwept g obstacles blocks block worldX worldY = false := by
  obtain ⟨cell, hcell, hoob⟩ := h
  by_contra hcon
  have htrue : CollisionDetector.canBlockMoveToSwept g obstacles blocks block
      worldX worldY = true := by
    cases hres : CollisionDetector.canBlockMoveToSwept g obstacles blocks block
        worldX worldY
    · exact absurd hres hcon
    · rfl
  have hloop : CollisionDetector.cellLoop g obstacles blocks block
      (block.getWorldCellPositionsAt worldX worldY)
      (CollisionDetector.calculateAABB (block.getWorldCellPositionsAt worldX worldY))
      [] (block.getWorldCellPositionsAt worldX worldY) = true := htrue
  have := cellLoop_centers_in_bounds g obstacles blocks block
    (block.getWorldCellPositionsAt worldX worldY)
    (CollisionDetector.calculateAABB (block.getWorldCellPositionsAt worldX worldY))
    (block.getWorldCellPositionsAt worldX worldY) [] hloop cell hcell
  rw [this] at hoob
  exact absurd hoob (by simp)

/-- Witness for the amended C3: a 1×1 block at x = 95 on the 2×2 test
grid has its cell's center in the out-of-bounds column 2, and the swept
`canBlockMoveTo` rejects. -/
theorem canBlockMoveToSwept_rejects_oob_center_witness :
    CollisionDetector.canBlockMoveToSwept testGrid [] [] testBlock 95 10 = false := by
  apply canBlockMoveToSwept_rejects_oob_center
  refine ⟨⟨95, 95 + 40, 10, 10 + 40⟩, ?_, ?_⟩
  · decide
  · decide

/-- Counterexample to C3 as stated: at x = 60 on the 2×2 test grid the
block's cell rectangle reaches world x = 100, outside the playable area
(right edge 90), yet the swept `canBlockMoveTo` accepts the position,
because the rectangle's center still lies in the in-bounds column 1. -/
theorem canBlockMoveToSwept_accepts_protruding_cell :
    CollisionDetector.canBlockMoveToSwept testGrid [] [] testBlock 60 10 = true ∧
    ∃ cell ∈ testBlock.getWorldCellPositionsAt 60 10,
      ¬boundsWithin cell testGrid.getPlayableBounds := by
  constructor
  · decide
  · refine ⟨⟨60, 60 + 40, 10, 10 + 40⟩, by decide, by decide⟩

/-! ## C8 — construction-time validation -/

/-- C8: the block constructor accepts, without any error, level data
that places a block on an obstacle cell.  `mkBlock`/`applyConstruct`
are total (no error channel exists in the source constructor), the
construction step is accepted by the lifecycle, the resulting state
contains a non-dragging block whose occupied cell is an obstacle cell,
and the discrete validity check that load-time validation would use
rejects that very placement. -/
theorem construction_accepts_invalid_level :
    Step false (initState 2 2 40 0 0 10 [⟨0, 0⟩] [])
      (applyConstruct (initState 2 2 40 0 0 10 [⟨0, 0⟩] [])
        ⟨"b0", "red", .r1x1, ⟨0, 0⟩⟩) ∧
    (∃ b ∈ (applyConstruct (initState 2 2 40 0 0 10 [⟨0, 0⟩] [])
        ⟨"b0", "red", .r1x1, ⟨0, 0⟩⟩).blocks,
      b.isDragging = false ∧
      ∃ p ∈ b.getOccupiedCells,
        p ∈ (initState 2 2 40 0 0 10 [⟨0, 0⟩] []).obstacles) ∧
    CollisionDetector.isValidGridPosition
      (initState 2 2 40 0 0 10 [⟨0, 0⟩] []).grid
      (initState 2 2 40 0 0 10 [⟨0, 0⟩] []).obstacles
      (mkBlock (initState 2 2 40 0 0 10 [⟨0, 0⟩] []).grid
        ⟨"b0", "red", .r1x1, ⟨0, 0⟩⟩).1 0 0 = false := by
  refine ⟨?_, ?_, ?_⟩
  · exact Step.construct _ _ rfl (by decide) (fun h => absurd h (by decide))
  · refine ⟨(mkBlock (initState 2 2 40 0 0 10 [⟨0, 0⟩] []).grid
      ⟨"b0", "red", .r1x1, ⟨0, 0⟩⟩).1, ?_, by decide, ⟨0, 0⟩, by decide, by decide⟩
    simp [applyConstruct]
  · decide

/-! ## C5 — drag-end soft failure -/

/-- C5: when a drag ends with no matching exit and the nearest-valid
search fails, the controller restores the block via `setGridPosition`
at its last known valid grid position, fires neither the
move-completed nor the removed event, and the block's occupied cells
coincide exactly with the grid cells referencing it afterwards.  (The
whole path is a total function — no exception channel exists.)  The two
side hypotheses record facts that hold in every reachable state: the
last valid position keeps the block's cells in bounds, and the table
never stores the block's id out of bounds. -/
theorem onDragEnd_soft_failure (s : GameState) (b : Block)
    (hb : b ∈ s.blocks)
    (hdrag : b.isDragging = true)
    (hexit : CollisionDetector.checkExitCondition s.grid (dragEndTempBlock s b)
      s.exitZones = none)
    (hfind : CollisionDetector.findNearestValidGridPosition s.grid s.obstacles
      (dragEndRestoredBlock s b) (dragEndRestoredBlock s b).x
      (dragEndRestoredBlock s b).y = none)
    (hinb : ∀ o ∈ b.shapeOffsets, s.grid.isInBounds
      (b.lastValidPosition.row + o.row + b.shapeOriginOffset.row)
      (b.lastValidPosition.col + o.col + b.shapeOriginOffset.col) = true)
    (hoob : ∀ r c, s.grid.isInBounds r c = false → s.grid.cells r c ≠ some b.id) :
    (onDragEnd s b).moveCompleted = false ∧
    (onDragEnd s b).removedBlock = none ∧
    ∃ b3 ∈ (onDragEnd s b).state.blocks, b3.id = b.id ∧
      b3.gridPosition = b.lastValidPosition ∧
      b3.lastValidPosition = b.lastValidPosition ∧
      (∀ r c, (onDragEnd s b).state.grid.cells r c = some b.id ↔
        (⟨r, c⟩ : GridPosition) ∈ b3.getOccupiedCells) := by
  have hres : onDragEnd s b =
      { state := { s with
          grid := ((dragEndRestoredBlock s b).setGridPosition s.grid
            (dragEndRestoredBlock s b).lastValidPosition.row
            (dragEndRestoredBlock s b).lastValidPosition.col).2
          blocks := updateBlockList s.blocks
            ((dragEndRestoredBlock s b).setGridPosition s.grid
              (dragEndRestoredBlock s b).lastValidPosition.row
              (dragEndRestoredBlock s b).lastValidPosition.col).1
          active := none }
        moveCompleted := false
        removedBlock := none } := by
    unfold onDragEnd
    rw [if_pos hdrag, hexit, hfind]
  rw [hres]
  refine ⟨rfl, rfl, ?_⟩
  refine ⟨((dragEndRestoredBlock s b).setGridPosition s.grid
    (dragEndRestoredBlock s b).lastValidPosition.row
    (dragEndRestoredBlock s b).lastValidPosition.col).1, ?_, rfl, rfl, rfl, ?_⟩
  · show _ ∈ updateBlockList s.blocks _
    unfold updateBlockList
    refine List.mem_map.mpr ⟨b, hb, ?_⟩
    rw [if_pos]
    rfl
  · intro r c
    show ((( dragEndRestoredBlock s b).setGridPosition s.grid
      (dragEndRestoredBlock s b).lastValidPosition.row
      (dragEndRestoredBlock s b).lastValidPosition.col).1.updateGridOccupancy
        s.grid).cells r c = some b.id ↔ _
    rw [Block.cells_updateGridOccupancy]
    have hid : ((dragEndRestoredBlock s b).setGridPosition s.grid
        (dragEndRestoredBlock s b).lastValidPosition.row
        (dragEndRestoredBlock s b).lastValidPosition.col).1.id = b.id := rfl
    rw [hid]
    have hmem_inb : ∀ p ∈ ((dragEndRestoredBlock s b).setGridPosition s.grid
        (dragEndRestoredBlock s b).lastValidPosition.row
        (dragEndRestoredBlock s b).lastValidPosition.col).1.getOccupiedCells,
        s.grid.isInBounds p.row p.col = true := by
      intro p hp
      obtain ⟨o, ho, rfl⟩ := List.mem_map.mp hp
      exact hinb o ho
    constructor
    · intro hcells
      by_cases h1 : s.grid.isInBounds r c = true ∧ (⟨r, c⟩ : GridPosition) ∈
          ((dragEndRestoredBlock s b).setGridPosition s.grid
            (dragEndRestoredBlock s b).lastValidPosition.row
            (dragEndRestoredBlock s b).lastValidPosition.col).1.getOccupiedCells
      · exact h1.2
      · rw [if_neg h1] at hcells
        by_cases h2 : s.grid.isInBounds r c = true ∧ s.grid.cells r c = some b.id
        · rw [if_pos h2] at hcells
          exact absurd hcells (by simp)
        · rw [if_neg h2] at hcells
          exfalso
          by_cases hin : s.grid.isInBounds r c = true
          · exact h2 ⟨hin, hcells⟩
          · have : s.grid.isInBounds r c = false := by
              cases hx : s.grid.isInBounds r c
              · rfl
              · exact absurd hx hin
            exact hoob r c this hcells
    · intro hmem
      rw [if_pos ⟨hmem_inb _ hmem, hmem⟩]

/-- Witness for C5: a 1×1 level whose only cell is an obstacle; a drag
end over it finds no exit and no legal cell and reverts to the last
valid position with the occupancy table synchronized. -/
theorem onDragEnd_soft_failure_witness :
    (onDragEnd testStuckState testDragBlock).moveCompleted = false ∧
    (onDragEnd testStuckState testDragBlock).removedBlock = none ∧
    ∃ b3 ∈ (onDragEnd testStuckState testDragBlock).state.blocks,
      b3.id = testDragBlock.id ∧
      b3.gridPosition = testDragBlock.lastValidPosition ∧
      b3.lastValidPosition = testDragBlock.lastValidPosition ∧
      (∀ r c, (onDragEnd testStuckState testDragBlock).state.grid.cells r c =
          some testDragBlock.id ↔
        (⟨r, c⟩ : GridPosition) ∈ b3.getOccupiedCells) :=
  onDragEnd_soft_failure testStuckState testDragBlock
    (by decide)
    (by decide)
    (by decide)
    (by decide)
    (by decide)
    (fun r c hf hcon => by
      have : testStuckState.grid.cells r c = none := rfl
      rw [this] at hcon
      exact Option.noConfusion hcon)

/-! ## C2 — no tunneling through the drag-position resolution -/

/-- C2: whenever `canBlockMoveTo` holds at the current position and
fails at the desired position, the drag-position resolution
(`getValidDragPositionWithSliding`, implemented as the sliding
`getValidDragPosition`) returns a position at which `canBlockMoveTo`
holds — it never returns an illegal position. -/
theorem getValidDragPosition_no_tunnel (g : Grid) (obstacles : List GridPosition)
    (block : Block) (desiredX desiredY currentX currentY : ℚ)
    (hstart : CollisionDetector.canBlockMoveTo g obstacles block currentX currentY = true)
    (hend : CollisionDetector.canBlockMoveTo g obstacles block desiredX desiredY = false) :
    CollisionDetector.canBlockMoveTo g obstacles block
      (CollisionDetector.getValidDragPosition g obstacles block
        desiredX desiredY currentX currentY).x
      (CollisionDetector.getValidDragPosition g obstacles block
        desiredX desiredY currentX currentY).y = true := by
  unfold CollisionDetector.getValidDragPosition
  split_ifs with h0 h1 h2
  · exact h0
  · exact h1.2
  · exact h2.2
  · exact hstart

/-- Witness for C2: on the empty test grid, dragging from the legal
cell (0,0) toward a desired position far outside the grid resolves to a
legal position. -/
theorem getValidDragPosition_no_tunnel_witness :
    CollisionDetector.canBlockMoveTo testGrid [] testBlock 10 10 = true ∧
    CollisionDetector.canBlockMoveTo testGrid [] testBlock 200 10 = false ∧
    CollisionDetector.canBlockMoveTo testGrid [] testBlock
      (CollisionDetector.getValidDragPosition testGrid [] testBlock 200 10 10 10).x
      (CollisionDetector.getValidDragPosition testGrid [] testBlock 200 10 10 10).y = true := by
  refine ⟨by decide, by decide, ?_⟩
  exact getValidDragPosition_no_tunnel testGrid [] testBlock 200 10 10 10
    (by decide) (by decide)

/-! ## C7 — axis-decomposed sliding -/

/-- C7: when the desired diagonal target and the horizontal-only target
are both blocked while the vertical-only target is free (a block
obstructed only to the east moving northeast), the sliding resolution
keeps the full vertical component of the movement and none of the
horizontal component. -/
theorem getValidDragPosition_slides_vertically (g : Grid)
    (obstacles : List GridPosition) (block : Block)
    (desiredX desiredY currentX currentY : ℚ)
    (hdes : CollisionDetector.canBlockMoveTo g obstacles block desiredX desiredY = false)
    (hx : CollisionDetector.canBlockMoveTo g obstacles block desiredX currentY = false)
    (hy : CollisionDetector.canBlockMoveTo g obstacles block currentX desiredY = true)
    (hdy : desiredY ≠ currentY) :
    (CollisionDetector.getValidDragPosition g obstacles block
        desiredX desiredY currentX currentY).x = currentX ∧
    (CollisionDetector.getValidDragPosition g obstacles block
        desiredX desiredY currentX currentY).y = desiredY := by
  have hX : currentX + (desiredX - currentX) = desiredX := by ring
  have hY : currentY + (desiredY - currentY) = desiredY := by ring
  unfold CollisionDetector.getValidDragPosition
  split_ifs with h0 h1 h2
  · rw [h0] at hdes
    exact absurd hdes (by simp)
  · rw [hX] at h1
    rw [h1.2] at hx
    exact absurd hx (by simp)
  · exact ⟨rfl, hY⟩
  · exfalso
    apply h2
    constructor
    · exact abs_pos.mpr (sub_ne_zero.mpr hdy)
    · rw [hY]
      exact hy

/-! ## C4 — exit matching -/

theorem exitMatches_eq_true_iff (g : Grid) (block : Block) (blockBounds : Bounds)
    (e : ExitZone) :
    exitMatches g block blockBounds e = true ↔
      (e.color.toLower = block.color.toLower ∧
       e.canBlockFit g blockBounds = true ∧
       e.isBlockAligned g blockBounds (g.cellSize * (1 / 2)) = true) := by
  unfold exitMatches
  simp [Bool.and_eq_true, and_assoc]

/-- The exit-check loop is a first-match search with the three-condition
predicate. -/
theorem checkExitLoop_eq_find (g : Grid) (block : Block) (blockBounds : Bounds)
    (l : List ExitZone) :
    CollisionDetector.checkExitLoop g block blockBounds l =
      l.find? (exitMatches g block blockBounds) := by
  induction l with
  | nil => rfl
  | cons e rest ih =>
    unfold CollisionDetector.checkExitLoop
    by_cases hm : exitMatches g block blockBounds e = true
    · rw [List.find?_cons_of_pos _ hm]
      obtain ⟨h1, h2, h3⟩ := (exitMatches_eq_true_iff ..).mp hm
      rw [if_pos h1, if_pos h2, if_pos h3]
    · rw [List.find?_cons_of_neg _ hm]
      rw [exitMatches_eq_true_iff] at hm
      by_cases h1 : e.color.toLower = block.color.toLower
      · rw [if_pos h1]
        by_cases h2 : e.canBlockFit g blockBounds = true
        · rw [if_pos h2]
          have h3 : ¬(e.isBlockAligned g blockBounds (g.cellSize * (1 / 2)) = true) :=
            fun h3 => hm ⟨h1, h2, h3⟩
          rw [if_neg h3]
          exact ih
        · rw [if_neg h2]
          exact ih
      · rw [if_neg h1]
        exact ih

/-- C4: `checkExitCondition` returns an exit `e` exactly when `e` is
the first zone in the given order matching all three conditions (color
case-insensitively equal, block bounds fitting along the relevant axis,
bounds aligned to the outward edge within half a cell), and returns
none exactly when no zone matches all three. -/
theorem checkExitCondition_first_match (g : Grid) (block : Block)
    (exitZones : List ExitZone) :
    (∀ e, CollisionDetector.checkExitCondition g block exitZones = some e ↔
      (e.color.toLower = block.color.toLower ∧
       e.canBlockFit g (block.getWorldBounds g) = true ∧
       e.isBlockAligned g (block.getWorldBounds g) (g.cellSize * (1 / 2)) = true) ∧
      ∃ pre post, exitZones = pre ++ e :: post ∧
        ∀ e2 ∈ pre, ¬(e2.color.toLower = block.color.toLower ∧
          e2.canBlockFit g (block.getWorldBounds g) = true ∧
          e2.isBlockAligned g (block.getWorldBounds g) (g.cellSize * (1 / 2)) = true)) ∧
    (CollisionDetector.checkExitCondition g block exitZones = none ↔
      ∀ e ∈ exitZones, ¬(e.color.toLower = block.color.toLower ∧
        e.canBlockFit g (block.getWorldBounds g) = true ∧
        e.isBlockAligned g (block.getWorldBounds g) (g.cellSize * (1 / 2)) = true)) := by
  constructor
  · intro e
    rw [CollisionDetector.checkExitCondition, checkExitLoop_eq_find, List.find?_eq_some]
    constructor
    · rintro ⟨hme, pre, post, hsplit, hpre⟩
      refine ⟨(exitMatches_eq_true_iff ..).mp hme, pre, post, hsplit, ?_⟩
      intro e2 he2 hcond
      have := hpre e2 he2
      rw [(exitMatches_eq_true_iff ..).mpr hcond] at this
      simp at this
    · rintro ⟨hcond, pre, post, hsplit, hpre⟩
      refine ⟨(exitMatches_eq_true_iff ..).mpr hcond, pre, post, hsplit, ?_⟩
      intro e2 he2
      have : ¬(exitMatches g block (block.getWorldBounds g) e2 = true) := by
        rw [exitMatches_eq_true_iff]
        exact hpre e2 he2
      simp only [Bool.not_eq_true] at this
      simp [this]
  · rw [CollisionDetector.checkExitCondition, checkExitLoop_eq_find, List.find?_eq_none]
    constructor
    · intro h e he
      rw [← exitMatches_eq_true_iff g block (block.getWorldBounds g) e]
      exact h e he
    · intro h e he
      rw [exitMatches_eq_true_iff]
      exact h e he

/-! ## C6 — the nearest-valid-cell ring search -/

theorem mem_intRangeAscGo (x a : Int) (n : Nat) :
    x ∈ CollisionDetector.intRangeAscGo a n ↔ a ≤ x ∧ x < a + n := by
  induction n generalizing a with
  | zero =>
    simp only [CollisionDetector.intRangeAscGo, List.not_mem_nil, false_iff]
    omega
  | succ m ih =>
    simp only [CollisionDetector.intRangeAscGo, List.mem_cons, ih]
    omega

theorem mem_intRangeAsc (a b x : Int) :
    x ∈ CollisionDetector.intRangeAsc a b ↔ a ≤ x ∧ x ≤ b := by
  unfold CollisionDetector.intRangeAsc
  rw [mem_intRangeAscGo]
  omega

theorem ringColLoop_eq_find (g : Grid) (obstacles : List GridPosition) (block : Block)
    (gp : GridPosition) (distance dRow : Int) (dCols : List Int) :
    CollisionDetector.ringColLoop g obstacles block gp distance dRow dCols =
      (dCols.filterMap fun dCol =>
        if |dRow| = distance ∨ |dCol| = distance then
          some (⟨gp.row + dRow, gp.col + dCol⟩ : GridPosition)
        else none).find? (validAt g obstacles block) := by
  induction dCols with
  | nil => rfl
  | cons dCol rest ih =>
    unfold CollisionDetector.ringColLoop
    rw [List.filterMap_cons]
    by_cases hring : |dRow| = distance ∨ |dCol| = distance
    · rw [if_pos hring, if_pos hring, List.find?_cons]
      by_cases hvalid : CollisionDetector.isValidGridPosition g obstacles block
          (gp.row + dRow) (gp.col + dCol) = true
      · rw [if_pos hvalid]
        have : validAt g obstacles block ⟨gp.row + dRow, gp.col + dCol⟩ = true := hvalid
        rw [this]
      · rw [if_neg hvalid]
        have : validAt g obstacles block ⟨gp.row + dRow, gp.col + dCol⟩ = false := by
          simpa [validAt] using hvalid
        rw [this]
        exact ih
    · rw [if_neg hring, if_neg hring]
      exact ih

theorem ringRowLoop_eq_find (g : Grid) (obstacles : List GridPosition) (block : Block)
    (gp : GridPosition) (distance : Int) (dRows : List Int) :
    CollisionDetector.ringRowLoop g obstacles block gp distance dRows =
      (dRows.flatMap fun dRow =>
        (CollisionDetector.intRangeAsc (-distance) distance).filterMap fun dCol =>
          if |dRow| = distance ∨ |dCol| = distance then
            some (⟨gp.row + dRow, gp.col + dCol⟩ : GridPosition)
          else none).find? (validAt g obstacles block) := by
  induction dRows with
  | nil => rfl
  | cons dRow rest ih =>
    unfold CollisionDetector.ringRowLoop
    rw [List.flatMap_cons, List.find?_append, ringColLoop_eq_find, ih]
    cases (List.filterMap _ (CollisionDetector.intRangeAsc (-distance) distance)).find?
        (validAt g obstacles block) with
    | none => simp [Option.or]
    | some p => simp [Option.or]

theorem ringDistLoop_eq_find (g : Grid) (obstacles : List GridPosition) (block : Block)
    (gp : GridPosition) (ds : List Int) :
    CollisionDetector.ringDistLoop g obstacles block gp ds =
      (ds.flatMap (ringCells gp)).find? (validAt g obstacles block) := by
  induction ds with
  | nil => rfl
  | cons d rest ih =>
    unfold CollisionDetector.ringDistLoop
    have hrow : CollisionDetector.ringRowLoop g obstacles block gp d
        (CollisionDetector.intRangeAsc (-d) d) =
        (ringCells gp d).find? (validAt g obstacles block) :=
      ringRowLoop_eq_find g obstacles block gp d (CollisionDetector.intRangeAsc (-d) d)
    rw [List.flatMap_cons, List.find?_append, hrow, ih]
    cases (ringCells gp d).find? (validAt g obstacles block) with
    | none => simp [Option.or]
    | some p => simp [Option.or]

/-- The ring search equals a first-match scan of the specification's
candidate sequence. -/
theorem findNearestValidGridPosition_eq_find (g : Grid) (obstacles : List GridPosition)
    (block : Block) (worldX worldY : ℚ) :
    CollisionDetector.findNearestValidGridPosition g obstacles block worldX worldY =
      (searchCandidates (g.worldToGrid worldX worldY)).find?
        (validAt g obstacles block) := by
  unfold CollisionDetector.findNearestValidGridPosition searchCandidates
  rw [List.find?_cons]
  by_cases hvalid : CollisionDetector.isValidGridPosition g obstacles block
      (g.worldToGrid worldX worldY).row (g.worldToGrid worldX worldY).col = true
  · have hv : validAt g obstacles block (g.worldToGrid worldX worldY) = true := hvalid
    rw [if_pos hvalid, hv]
  · have hv : validAt g obstacles block (g.worldToGrid worldX worldY) = false := by
      simpa [validAt] using hvalid
    rw [if_neg hvalid, hv, ringDistLoop_eq_find]

/-- Membership in the candidate sequence is exactly Chebyshev distance
at most 3 from the center cell. -/
theorem mem_searchCandidates (gp q : GridPosition) :
    q ∈ searchCandidates gp ↔ |q.row - gp.row| ≤ 3 ∧ |q.col - gp.col| ≤ 3 := by
  unfold searchCandidates ringCells
  simp only [List.mem_cons, List.mem_flatMap, List.mem_filterMap, mem_intRangeAsc,
    List.not_mem_nil, or_false, Int.abs_eq_natAbs]
  constructor
  · rintro (rfl | ⟨d, hd, dRow, hdRow, dCol, hdCol, hsome⟩)
    · constructor <;> omega
    · split at hsome
      · cases hsome
        dsimp only
        omega
      · cases hsome
  · rintro ⟨h1, h2⟩
    by_cases hq : q = gp
    · exact Or.inl hq
    · right
      have hne : ¬(q.row = gp.row ∧ q.col = gp.col) := by
        intro hcon
        apply hq
        cases q; cases gp
        simp only [GridPosition.mk.injEq]
        exact hcon
      have hml : (q.row - gp.row).natAbs ≤
          max (q.row - gp.row).natAbs (q.col - gp.col).natAbs :=
        Nat.le_max_left _ _
      have hmr : (q.col - gp.col).natAbs ≤
          max (q.row - gp.row).natAbs (q.col - gp.col).natAbs :=
        Nat.le_max_right _ _
      have hmc : max (q.row - gp.row).natAbs (q.col - gp.col).natAbs =
            (q.row - gp.row).natAbs ∨
          max (q.row - gp.row).natAbs (q.col - gp.col).natAbs =
            (q.col - gp.col).natAbs :=
        max_choice _ _
      refine ⟨(max (q.row - gp.row).natAbs (q.col - gp.col).natAbs : Int), ?_,
        q.row - gp.row, ?_, q.col - gp.col, ?_, ?_⟩
      · omega
      · omega
      · omega
      · rw [if_pos]
        · cases q
          cases gp
          simp only [Option.some.injEq, GridPosition.mk.injEq]
          dsimp only at *
          constructor <;> omega
        · rcases hmc with h | h
          · exact Or.inl (by omega)
          · exact Or.inr (by omega)

/-- C6: the nearest-valid-cell search converts the continuous position
to its containing grid cell, then returns the first legal cell of the
candidate sequence (center first, then square rings of radius 1, 2, 3
in row-major order within each ring), and returns none exactly when no
cell within Chebyshev radius 3 of the center is legal. -/
theorem findNearestValidGridPosition_spec (g : Grid) (obstacles : List GridPosition)
    (block : Block) (worldX worldY : ℚ) :
    (∀ p, CollisionDetector.findNearestValidGridPosition g obstacles block worldX worldY =
        some p ↔
      CollisionDetector.isValidGridPosition g obstacles block p.row p.col = true ∧
      ∃ pre post, searchCandidates (g.worldToGrid worldX worldY) = pre ++ p :: post ∧
        ∀ q ∈ pre,
          CollisionDetector.isValidGridPosition g obstacles block q.row q.col = false) ∧
    (CollisionDetector.findNearestValidGridPosition g obstacles block worldX worldY =
        none ↔
      ∀ q : GridPosition, |q.row - (g.worldToGrid worldX worldY).row| ≤ 3 →
        |q.col - (g.worldToGrid worldX worldY).col| ≤ 3 →
        CollisionDetector.isValidGridPosition g obstacles block q.row q.col = false) := by
  constructor
  · intro p
    rw [findNearestValidGridPosition_eq_find, List.find?_eq_some]
    constructor
    · rintro ⟨hp, pre, post, hsplit, hpre⟩
      refine ⟨hp, pre, post, hsplit, ?_⟩
      intro q hq
      have := hpre q hq
      simpa [validAt] using this
    · rintro ⟨hp, pre, post, hsplit, hpre⟩
      refine ⟨hp, pre, post, hsplit, ?_⟩
      intro q hq
      have := hpre q hq
      simp [validAt, this]
  · rw [findNearestValidGridPosition_eq_find, List.find?_eq_none]
    constructor
    · intro h q h1 h2
      have hq : q ∈ searchCandidates (g.worldToGrid worldX worldY) :=
        (mem_searchCandidates ..).mpr ⟨h1, h2⟩
      have := h q hq
      simpa [validAt] using this
    · intro h q hq
      obtain ⟨h1, h2⟩ := (mem_searchCandidates ..).mp hq
      have := h q h1 h2
      simp [validAt, this]

/-- Witness for C7: a block in cell (1,0) with obstacles to its east,
pushed northeast, moves only north (full vertical component, zero
horizontal component). -/
theorem getValidDragPosition_slides_vertically_witness :
    CollisionDetector.canBlockMoveTo testGrid testObstacles testBlock 50 10 = false ∧
    CollisionDetector.canBlockMoveTo testGrid testObstacles testBlock 50 50 = false ∧
    CollisionDetector.canBlockMoveTo testGrid testObstacles testBlock 10 10 = true ∧
    (CollisionDetector.getValidDragPosition testGrid testObstacles testBlock
        50 10 10 50).x = 10 ∧
    (CollisionDetector.getValidDragPosition testGrid testObstacles testBlock
        50 10 10 50).y = 10 := by
  refine ⟨by decide, by decide, by decide, ?_⟩
  exact getValidDragPosition_slides_vertically testGrid testObstacles testBlock 50 10 10 50
    (by decide) (by decide) (by decide) (by decide)

/-! ## C1 — the no-overlap invariant through the drag lifecycle -/

theorem map_id_updateBlockList (bs : List Block) (b1 : Block) :
    (updateBlockList bs b1).map Block.id = bs.map Block.id := by
  unfold updateBlockList
  rw [List.map_map]
  apply List.map_congr_left
  intro c _
  by_cases h : c.id = b1.id
  · simp [h]
  · simp [h]

theorem mem_updateBlockList_elim (bs : List Block) (b1 d : Block)
    (h : d ∈ updateBlockList bs b1) :
    d = b1 ∨ (d ∈ bs ∧ d.id ≠ b1.id) := by
  unfold updateBlockList at h
  obtain ⟨c, hc, hcd⟩ := List.mem_map.mp h
  by_cases hid : c.id = b1.id
  · rw [if_pos hid] at hcd
    exact Or.inl hcd.symm
  · rw [if_neg hid] at hcd
    rw [← hcd]
    exact Or.inr ⟨hc, hid⟩

theorem self_mem_updateBlockList (bs : List Block) (b b1 : Block)
    (hb : b ∈ bs) (hid : b.id = b1.id) : b1 ∈ updateBlockList bs b1 := by
  unfold updateBlockList
  exact List.mem_map.mpr ⟨b, hb, by rw [if_pos hid]⟩

theorem other_mem_updateBlockList (bs : List Block) (b1 d : Block)
    (hd : d ∈ bs) (hid : d.id ≠ b1.id) : d ∈ updateBlockList bs b1 := by
  unfold updateBlockList
  exact List.mem_map.mpr ⟨d, hd, by rw [if_neg hid]⟩

/-- Unpacking `isValidGridPosition`: every shape cell of a legal
placement is in bounds, empty-or-self in the table, and off the
obstacle list. -/
theorem isValidGridPosition_cells (g : Grid) (obstacles : List GridPosition)
    (block : Block) (row col : Int)
    (h : CollisionDetector.isValidGridPosition g obstacles block row col = true) :
    ∀ o ∈ block.shapeOffsets,
      g.isInBounds (row + o.row) (col + o.col) = true ∧
      (g.cells (row + o.row) (col + o.col) = none ∨
        g.cells (row + o.row) (col + o.col) = some block.id) ∧
      CollisionDetector.isObstacle obstacles (row + o.row) (col + o.col) = false := by
  intro o ho
  unfold CollisionDetector.isValidGridPosition at h
  have hcell := List.all_eq_true.mp h o ho
  simp only [Bool.and_eq_true, Bool.not_eq_true'] at hcell
  obtain ⟨⟨hin, hocc⟩, hobs⟩ := hcell
  refine ⟨hin, ?_, hobs⟩
  unfold Grid.getCellOccupant at hocc
  rw [if_pos hin] at hocc
  cases hc : g.cells (row + o.row) (col + o.col) with
  | none => exact Or.inl rfl
  | some occ =>
    rw [hc] at hocc
    simp only [decide_eq_true_eq] at hocc
    exact Or.inr (by rw [hocc])

theorem mkBlock_shapeOffsets (g : Grid) (cfg : BlockConfig) :
    (mkBlock g cfg).1.shapeOffsets = SHAPES cfg.shape := by
  obtain ⟨i, co, sh, gp⟩ := cfg
  cases sh <;> rfl

theorem mkBlock_originZero (g : Grid) (cfg : BlockConfig) :
    (mkBlock g cfg).1.shapeOriginOffset = ⟨0, 0⟩ := by
  obtain ⟨i, co, sh, gp⟩ := cfg
  cases sh <;> rfl

/-- With a zero origin offset the occupied cells are just the grid
position translated by the normalized offsets. -/
theorem Block.getOccupiedCells_origin_zero (b : Block)
    (h0 : b.shapeOriginOffset = ⟨0, 0⟩) :
    b.getOccupiedCells = b.shapeOffsets.map fun o =>
      (⟨b.gridPosition.row + o.row, b.gridPosition.col + o.col⟩ : GridPosition) := by
  unfold Block.getOccupiedCells
  rw [h0]
  apply List.map_congr_left
  intro o _
  simp

theorem isObstacle_eq_false_iff (obstacles : List GridPosition) (row col : Int) :
    CollisionDetector.isObstacle obstacles row col = false ↔
      (⟨row, col⟩ : GridPosition) ∉ obstacles := by
  unfold CollisionDetector.isObstacle
  rw [List.any_eq_false]
  constructor
  · intro h hmem
    have := h _ hmem
    simp at this
  · intro h obs hobs
    simp only [decide_eq_true_eq]
    intro ⟨h1, h2⟩
    apply h
    have : obs = ⟨row, col⟩ := by
      cases obs
      simp only [GridPosition.mk.injEq]
      exact ⟨h1, h2⟩
    rw [← this]
    exact hobs

/-- The empty level satisfies the strengthened invariant. -/
theorem fullInv_initState (rows cols : Int) (cellSize gx gy wall : ℚ)
    (obstacles : List GridPosition) (exitZones : List ExitZone) :
    FullInv (initState rows cols cellSize gx gy wall obstacles exitZones) := by
  refine ⟨?_, ?_, ?_, ?_, ?_, ?_, ?_, ?_, ?_, ?_⟩
  · intro r c _
    rfl
  · simp [initState]
  · intro b hb
    exact absurd hb (List.not_mem_nil b)
  · intro b hb
    exact absurd hb (List.not_mem_nil b)
  · intro b hb
    exact absurd hb (List.not_mem_nil b)
  · intro b hb
    exact absurd hb (List.not_mem_nil b)
  · intro b hb
    exact absurd hb (List.not_mem_nil b)
  · intro b hb
    exact absurd hb (List.not_mem_nil b)
  · intro b hb
    exact absurd hb (List.not_mem_nil b)
  · intro r c occ h
    exact absurd h (by simp [initState])

/-- Validated construction preserves the strengthened invariant. -/
theorem fullInv_construct (s : GameState) (cfg : BlockConfig)
    (hquiet : s.active = none)
    (hfresh : cfg.id ∉ s.blocks.map Block.id)
    (hvalid : CollisionDetector.isValidGridPosition s.grid s.obstacles
      (mkBlock s.grid cfg).1 cfg.gridPosition.row cfg.gridPosition.col = true)
    (hinv : FullInv s) : FullInv (applyConstruct s cfg) := by
  have hBid : (mkBlock s.grid cfg).1.id = cfg.id := rfl
  have hBdrag : (mkBlock s.grid cfg).1.isDragging = false := rfl
  have hgrid : (applyConstruct s cfg).grid =
      (mkBlock s.grid cfg).1.updateGridOccupancy s.grid := rfl
  have hblocks : (applyConstruct s cfg).blocks = s.blocks ++ [(mkBlock s.grid cfg).1] := rfl
  have hobs : (applyConstruct s cfg).obstacles = s.obstacles := rfl
  have hact : (applyConstruct s cfg).active = s.active := rfl
  have hvcells := isValidGridPosition_cells s.grid s.obstacles (mkBlock s.grid cfg).1
    cfg.gridPosition.row cfg.gridPosition.col hvalid
  have hnostale : ∀ r c, s.grid.cells r c ≠ some (mkBlock s.grid cfg).1.id := by
    intro r c hcell
    obtain ⟨d, hd, hdid⟩ := hinv.tableIds r c _ hcell
    exact hfresh (List.mem_map.mpr ⟨d, hd, by rw [hdid, hBid]⟩)
  have hoccB : ∀ p, p ∈ (mkBlock s.grid cfg).1.getOccupiedCells ↔
      ∃ o ∈ (mkBlock s.grid cfg).1.shapeOffsets,
        p = (⟨cfg.gridPosition.row + o.row, cfg.gridPosition.col + o.col⟩ : GridPosition) := by
    intro p
    rw [Block.getOccupiedCells_origin_zero _ (mkBlock_originZero s.grid cfg),
      List.mem_map]
    constructor
    · rintro ⟨o, ho, rfl⟩
      exact ⟨o, ho, rfl⟩
    · rintro ⟨o, ho, rfl⟩
      exact ⟨o, ho, rfl⟩
  have hoccB_inb : ∀ p ∈ (mkBlock s.grid cfg).1.getOccupiedCells,
      s.grid.isInBounds p.row p.col = true := by
    intro p hp
    obtain ⟨o, ho, rfl⟩ := (hoccB p).mp hp
    exact (hvcells o ho).1
  have hoccB_free : ∀ p ∈ (mkBlock s.grid cfg).1.getOccupiedCells,
      s.grid.cells p.row p.col = none := by
    intro p hp
    obtain ⟨o, ho, rfl⟩ := (hoccB p).mp hp
    rcases (hvcells o ho).2.1 with h | h
    · exact h
    · exact absurd h (hnostale _ _)
  have hoccB_noObst : ∀ p ∈ (mkBlock s.grid cfg).1.getOccupiedCells,
      p ∉ s.obstacles := by
    intro p hp
    obtain ⟨o, ho, rfl⟩ := (hoccB p).mp hp
    exact (isObstacle_eq_false_iff ..).mp (hvcells o ho).2.2
  have hcells : ∀ r c, (applyConstruct s cfg).grid.cells r c =
      if s.grid.isInBounds r c = true ∧
          (⟨r, c⟩ : GridPosition) ∈ (mkBlock s.grid cfg).1.getOccupiedCells then
        some (mkBlock s.grid cfg).1.id
      else s.grid.cells r c := by
    intro r c
    rw [hgrid, Block.cells_updateGridOccupancy]
    by_cases h1 : s.grid.isInBounds r c = true ∧
        (⟨r, c⟩ : GridPosition) ∈ (mkBlock s.grid cfg).1.getOccupiedCells
    · rw [if_pos h1, if_pos h1]
    · rw [if_neg h1, if_neg h1, if_neg]
      intro ⟨_, h2⟩
      exact hnostale r c h2
  have hmemnew : ∀ d, d ∈ (applyConstruct s cfg).blocks ↔
      d ∈ s.blocks ∨ d = (mkBlock s.grid cfg).1 := by
    intro d
    rw [hblocks, List.mem_append, List.mem_singleton]
  have hid_ne : ∀ d ∈ s.blocks, d.id ≠ (mkBlock s.grid cfg).1.id := by
    intro d hd hdid
    exact hfresh (List.mem_map.mpr ⟨d, hd, by rw [hdid, hBid]⟩)
  refine ⟨?_, ?_, ?_, ?_, ?_, ?_, ?_, ?_, ?_, ?_⟩
  · intro r c hoob
    rw [hgrid, Block.isInBounds_updateGridOccupancy] at hoob
    rw [hcells]
    have hfalse : ¬(s.grid.isInBounds r c = true ∧
        (⟨r, c⟩ : GridPosition) ∈ (mkBlock s.grid cfg).1.getOccupiedCells) := by
      intro ⟨h1, _⟩
      rw [h1] at hoob
      exact Bool.noConfusion hoob
    rw [if_neg hfalse]
    exact hinv.oobEmpty r c hoob
  · rw [hblocks, List.map_append]
    rw [List.nodup_append]
    refine ⟨hinv.nodupIds, List.nodup_singleton _, ?_⟩
    intro i hi hi2
    simp only [List.map_cons, List.map_nil, List.mem_singleton] at hi2
    rw [hi2, hBid] at hi
    exact hfresh hi
  · intro b hb
    rcases (hmemnew b).mp hb with h | rfl
    · exact hinv.originZero b h
    · exact mkBlock_originZero s.grid cfg
  · intro b hb hbdrag r c
    rw [hcells]
    rcases (hmemnew b).mp hb with h | rfl
    · have hne : b.id ≠ (mkBlock s.grid cfg).1.id := hid_ne b h
      constructor
      · intro hv
        by_cases h1 : s.grid.isInBounds r c = true ∧
            (⟨r, c⟩ : GridPosition) ∈ (mkBlock s.grid cfg).1.getOccupiedCells
        · rw [if_pos h1] at hv
          exact absurd (Option.some.inj hv).symm hne
        · rw [if_neg h1] at hv
          exact (hinv.sync b h hbdrag r c).mp hv
      · intro hv
        have hcell := (hinv.sync b h hbdrag r c).mpr hv
        have h1 : ¬(s.grid.isInBounds r c = true ∧
            (⟨r, c⟩ : GridPosition) ∈ (mkBlock s.grid cfg).1.getOccupiedCells) := by
          intro ⟨_, h2⟩
          have := hoccB_free _ h2
          rw [this] at hcell
          exact Option.noConfusion hcell
        rw [if_neg h1]
        exact hcell
    · constructor
      · intro hv
        by_cases h1 : s.grid.isInBounds r c = true ∧
            (⟨r, c⟩ : GridPosition) ∈ (mkBlock s.grid cfg).1.getOccupiedCells
        · exact h1.2
        · rw [if_neg h1] at hv
          exact absurd hv (hnostale r c)
      · intro hv
        rw [if_pos ⟨hoccB_inb _ hv, hv⟩]
  · intro b hb hbdrag p hp
    rw [hobs]
    rcases (hmemnew b).mp hb with h | rfl
    · exact hinv.noObst b h hbdrag p hp
    · exact hoccB_noObst p hp
  · intro b hb hbdrag r c
    rcases (hmemnew b).mp hb with h | rfl
    · have := hinv.draggingActive b h hbdrag
      rw [hquiet] at this
      exact absurd this (by simp)
    · rw [hBdrag] at hbdrag
      exact Bool.noConfusion hbdrag
  · intro b hb hbdrag
    rcases (hmemnew b).mp hb with h | rfl
    · exact hinv.lastEq b h hbdrag
    · rfl
  · intro b hb hactb
    rw [hact, hquiet] at hactb
    exact absurd hactb (by simp)
  · intro b hb hbdrag
    rcases (hmemnew b).mp hb with h | rfl
    · have := hinv.draggingActive b h hbdrag
      rw [hquiet] at this
      exact absurd this (by simp)
    · rw [hBdrag] at hbdrag
      exact Bool.noConfusion hbdrag
  · intro r c occ h
    rw [hcells] at h
    by_cases h1 : s.grid.isInBounds r c = true ∧
        (⟨r, c⟩ : GridPosition) ∈ (mkBlock s.grid cfg).1.getOccupiedCells
    · rw [if_pos h1] at h
      refine ⟨(mkBlock s.grid cfg).1, (hmemnew _).mpr (Or.inr rfl), ?_⟩
      exact (Option.some.inj h)
    · rw [if_neg h1] at h
      obtain ⟨d, hd, hdid⟩ := hinv.tableIds r c occ h
      exact ⟨d, (hmemnew d).mpr (Or.inl hd), hdid⟩

/-- Starting a drag preserves the strengthened invariant. -/
theorem fullInv_startDrag (s : GameState) (b : Block) (hb : b ∈ s.blocks)
    (hactive : s.active = none) (hinv : FullInv s) :
    FullInv (applyStartDrag s b) := by
  have hB1id : (b.startDrag s.grid).1.id = b.id := rfl
  have hB1drag : (b.startDrag s.grid).1.isDragging = true := rfl
  have hgrid : (applyStartDrag s b).grid = s.grid.clearEntity b.id := rfl
  have hblocks : (applyStartDrag s b).blocks =
      updateBlockList s.blocks (b.startDrag s.grid).1 := rfl
  have hobs : (applyStartDrag s b).obstacles = s.obstacles := rfl
  have hact : (applyStartDrag s b).active = some b.id := rfl
  have hnodrag : ∀ d ∈ s.blocks, d.isDragging = false := by
    intro d hd
    cases hdr : d.isDragging
    · rfl
    · have := hinv.draggingActive d hd hdr
      rw [hactive] at this
      exact absurd this (by simp)
  have hbnd : b.isDragging = false := hnodrag b hb
  have hcells : ∀ r c, (applyStartDrag s b).grid.cells r c =
      if s.grid.isInBounds r c = true ∧ s.grid.cells r c = some b.id then none
      else s.grid.cells r c := by
    intro r c
    rw [hgrid]
    exact Grid.cells_clearEntity s.grid b.id r c
  have hnotid : ∀ r c, (applyStartDrag s b).grid.cells r c ≠ some b.id := by
    intro r c h
    rw [hcells] at h
    by_cases h1 : s.grid.isInBounds r c = true ∧ s.grid.cells r c = some b.id
    · rw [if_pos h1] at h
      exact Option.noConfusion h
    · rw [if_neg h1] at h
      by_cases hin : s.grid.isInBounds r c = true
      · exact h1 ⟨hin, h⟩
      · have hf : s.grid.isInBounds r c = false := by
          cases hx : s.grid.isInBounds r c
          · rfl
          · exact absurd hx hin
        rw [hinv.oobEmpty r c hf] at h
        exact Option.noConfusion h
  refine ⟨?_, ?_, ?_, ?_, ?_, ?_, ?_, ?_, ?_, ?_⟩
  · intro r c hoob
    have hoob2 : s.grid.isInBounds r c = false := hoob
    rw [hcells]
    have h1 : ¬(s.grid.isInBounds r c = true ∧ s.grid.cells r c = some b.id) := by
      intro ⟨hx, _⟩
      rw [hx] at hoob2
      exact Bool.noConfusion hoob2
    rw [if_neg h1]
    exact hinv.oobEmpty r c hoob2
  · rw [hblocks, map_id_updateBlockList]
    exact hinv.nodupIds
  · intro d hd
    rcases mem_updateBlockList_elim _ _ _ (hblocks ▸ hd) with rfl | ⟨hdo, _⟩
    · exact hinv.originZero b hb
    · exact hinv.originZero d hdo
  · intro d hd hddrag r c
    rcases mem_updateBlockList_elim _ _ _ (hblocks ▸ hd) with rfl | ⟨hdo, hdne⟩
    · rw [hB1drag] at hddrag
      exact Bool.noConfusion hddrag
    · rw [hB1id] at hdne
      rw [hcells]
      constructor
      · intro hv
        by_cases h1 : s.grid.isInBounds r c = true ∧ s.grid.cells r c = some b.id
        · rw [if_pos h1] at hv
          exact Option.noConfusion hv
        · rw [if_neg h1] at hv
          exact (hinv.sync d hdo hddrag r c).mp hv
      · intro hv
        have hcell := (hinv.sync d hdo hddrag r c).mpr hv
        have h1 : ¬(s.grid.isInBounds r c = true ∧ s.grid.cells r c = some b.id) := by
          intro ⟨_, h2⟩
          rw [h2] at hcell
          exact hdne (Option.some.inj hcell).symm
        rw [if_neg h1]
        exact hcell
  · intro d hd hddrag p hp
    rcases mem_updateBlockList_elim _ _ _ (hblocks ▸ hd) with rfl | ⟨hdo, _⟩
    · rw [hB1drag] at hddrag
      exact Bool.noConfusion hddrag
    · exact hinv.noObst d hdo hddrag p hp
  · intro d hd hddrag r c
    rcases mem_updateBlockList_elim _ _ _ (hblocks ▸ hd) with rfl | ⟨hdo, _⟩
    · rw [hB1id]
      exact hnotid r c
    · rw [hnodrag d hdo] at hddrag
      exact Bool.noConfusion hddrag
  · intro d hd hddrag
    rcases mem_updateBlockList_elim _ _ _ (hblocks ▸ hd) with rfl | ⟨hdo, _⟩
    · rw [hB1drag] at hddrag
      exact Bool.noConfusion hddrag
    · exact hinv.lastEq d hdo hddrag
  · intro d hd hactd
    rcases mem_updateBlockList_elim _ _ _ (hblocks ▸ hd) with rfl | ⟨hdo, hdne⟩
    · intro o ho
      have hlast : (b.startDrag s.grid).1.lastValidPosition = b.gridPosition := by
        have h1 : (b.startDrag s.grid).1.lastValidPosition = b.lastValidPosition := rfl
        rw [h1]
        exact hinv.lastEq b hb hbnd
      have horow : (b.startDrag s.grid).1.shapeOriginOffset = b.shapeOriginOffset := rfl
      have hoff : (b.startDrag s.grid).1.shapeOffsets = b.shapeOffsets := rfl
      rw [hoff] at ho
      have hmem : (⟨(b.startDrag s.grid).1.lastValidPosition.row + o.row +
          (b.startDrag s.grid).1.shapeOriginOffset.row,
          (b.startDrag s.grid).1.lastValidPosition.col + o.col +
          (b.startDrag s.grid).1.shapeOriginOffset.col⟩ : GridPosition) ∈
          b.getOccupiedCells := by
        rw [hlast, horow]
        unfold Block.getOccupiedCells
        exact List.mem_map.mpr ⟨o, ho, rfl⟩
      have hcell : s.grid.cells
          ((b.startDrag s.grid).1.lastValidPosition.row + o.row +
            (b.startDrag s.grid).1.shapeOriginOffset.row)
          ((b.startDrag s.grid).1.lastValidPosition.col + o.col +
            (b.startDrag s.grid).1.shapeOriginOffset.col) = some b.id :=
        (hinv.sync b hb hbnd _ _).mpr hmem
      have hin : s.grid.isInBounds
          ((b.startDrag s.grid).1.lastValidPosition.row + o.row +
            (b.startDrag s.grid).1.shapeOriginOffset.row)
          ((b.startDrag s.grid).1.lastValidPosition.col + o.col +
            (b.startDrag s.grid).1.shapeOriginOffset.col) = true := by
        cases hx : s.grid.isInBounds
            ((b.startDrag s.grid).1.lastValidPosition.row + o.row +
              (b.startDrag s.grid).1.shapeOriginOffset.row)
            ((b.startDrag s.grid).1.lastValidPosition.col + o.col +
              (b.startDrag s.grid).1.shapeOriginOffset.col)
        · rw [hinv.oobEmpty _ _ hx] at hcell
          exact Option.noConfusion hcell
        · rfl
      refine ⟨hin, ?_, ?_⟩
      · exact hinv.noObst b hb hbnd _ hmem
      · rw [hcells, if_pos ⟨hin, hcell⟩]
    · rw [hact] at hactd
      rw [hB1id] at hdne
      exact absurd (Option.some.inj hactd).symm hdne
  · intro d hd hddrag
    rcases mem_updateBlockList_elim _ _ _ (hblocks ▸ hd) with rfl | ⟨hdo, _⟩
    · rw [hact, hB1id]
    · rw [hnodrag d hdo] at hddrag
      exact Bool.noConfusion hddrag
  · intro r c occ h
    rw [hcells] at h
    by_cases h1 : s.grid.isInBounds r c = true ∧ s.grid.cells r c = some b.id
    · rw [if_pos h1] at h
      exact Option.noConfusion h
    · rw [if_neg h1] at h
      obtain ⟨d, hd, hdid⟩ := hinv.tableIds r c occ h
      by_cases hdb : d.id = (b.startDrag s.grid).1.id
      · refine ⟨(b.startDrag s.grid).1, ?_, ?_⟩
        · rw [hblocks]
          exact self_mem_updateBlockList _ d _ hd hdb
        · rw [← hdb]
          exact hdid
      · refine ⟨d, ?_, hdid⟩
        rw [hblocks]
        exact other_mem_updateBlockList _ _ d hd hdb

/-- A drag move (which only repositions the continuous coordinates of
the active block) preserves the strengthened invariant. -/
theorem fullInv_dragMove (s : GameState) (b : Block) (x y : ℚ) (hb : b ∈ s.blocks)
    (hactive : s.active = some b.id) (hdrag : b.isDragging = true)
    (hinv : FullInv s) : FullInv (applyDragMove s b x y) := by
  have hB1 : b.updateDrag x y = { b with x := x, y := y } := by
    unfold Block.updateDrag
    rw [if_pos hdrag]
  have hgrid : (applyDragMove s b x y).grid = s.grid := rfl
  have hblocks : (applyDragMove s b x y).blocks =
      updateBlockList s.blocks (b.updateDrag x y) := rfl
  have hact : (applyDragMove s b x y).active = s.active := rfl
  have hB1id : (b.updateDrag x y).id = b.id := by rw [hB1]
  have hB1drag : (b.updateDrag x y).isDragging = true := by rw [hB1]; exact hdrag
  refine ⟨hinv.oobEmpty, ?_, ?_, ?_, ?_, ?_, ?_, ?_, ?_, ?_⟩
  · rw [hblocks, map_id_updateBlockList]
    exact hinv.nodupIds
  · intro d hd
    rcases mem_updateBlockList_elim _ _ _ (hblocks ▸ hd) with rfl | ⟨hdo, _⟩
    · rw [hB1]
      exact hinv.originZero b hb
    · exact hinv.originZero d hdo
  · intro d hd hddrag r c
    rcases mem_updateBlockList_elim _ _ _ (hblocks ▸ hd) with rfl | ⟨hdo, _⟩
    · rw [hB1drag] at hddrag
      exact Bool.noConfusion hddrag
    · exact hinv.sync d hdo hddrag r c
  · intro d hd hddrag p hp
    rcases mem_updateBlockList_elim _ _ _ (hblocks ▸ hd) with rfl | ⟨hdo, _⟩
    · rw [hB1drag] at hddrag
      exact Bool.noConfusion hddrag
    · exact hinv.noObst d hdo hddrag p hp
  · intro d hd hddrag r c
    rcases mem_updateBlockList_elim _ _ _ (hblocks ▸ hd) with rfl | ⟨hdo, _⟩
    · rw [hB1id]
      exact hinv.dragClear b hb hdrag r c
    · exact hinv.dragClear d hdo hddrag r c
  · intro d hd hddrag
    rcases mem_updateBlockList_elim _ _ _ (hblocks ▸ hd) with rfl | ⟨hdo, _⟩
    · rw [hB1drag] at hddrag
      exact Bool.noConfusion hddrag
    · exact hinv.lastEq d hdo hddrag
  · intro d hd hactd
    rcases mem_updateBlockList_elim _ _ _ (hblocks ▸ hd) with rfl | ⟨hdo, hdne⟩
    · rw [hB1]
      intro o ho
      exact hinv.activeLast b hb hactive o ho
    · rw [hact] at hactd
      rw [hactive] at hactd
      rw [hB1id] at hdne
      exact absurd (Option.some.inj hactd).symm hdne
  · intro d hd hddrag
    rcases mem_updateBlockList_elim _ _ _ (hblocks ▸ hd) with rfl | ⟨hdo, _⟩
    · rw [hact, hB1id]
      exact hactive
    · rw [hact]
      exact hinv.draggingActive d hdo hddrag
  · intro r c occ h
    obtain ⟨d, hd, hdid⟩ := hinv.tableIds r c occ h
    by_cases hdb : d.id = (b.updateDrag x y).id
    · refine ⟨b.updateDrag x y, ?_, by rw [← hdb]; exact hdid⟩
      rw [hblocks]
      exact self_mem_updateBlockList _ d _ hd hdb
    · refine ⟨d, ?_, hdid⟩
      rw [hblocks]
      exact other_mem_updateBlockList _ _ d hd hdb

/-- Committing the active dragged block to a cell whose footprint is in
bounds, free and obstacle-free (the common core of the snap and revert
paths of `onDragEnd`) restores the strengthened invariant. -/
theorem fullInv_commit (s : GameState) (b : Block) (hb : b ∈ s.blocks)
    (hactive : s.active = some b.id)
    (hdrag : b.isDragging = true) (hinv : FullInv s) (row col : Int)
    (hinb : ∀ o ∈ b.shapeOffsets, s.grid.isInBounds
      (row + o.row + b.shapeOriginOffset.row) (col + o.col + b.shapeOriginOffset.col) = true)
    (hfree : ∀ o ∈ b.shapeOffsets, s.grid.cells
      (row + o.row + b.shapeOriginOffset.row) (col + o.col + b.shapeOriginOffset.col) = none)
    (hnoobst : ∀ o ∈ b.shapeOffsets,
      (⟨row + o.row + b.shapeOriginOffset.row,
        col + o.col + b.shapeOriginOffset.col⟩ : GridPosition) ∉ s.obstacles) :
    FullInv { s with
      grid := ((dragEndRestoredBlock s b).setGridPosition s.grid row col).2
      blocks := updateBlockList s.blocks
        ((dragEndRestoredBlock s b).setGridPosition s.grid row col).1
      active := none } := by
  have hRid : ((dragEndRestoredBlock s b).setGridPosition s.grid row col).1.id = b.id := rfl
  have hRdrag : ((dragEndRestoredBlock s b).setGridPosition s.grid row col).1.isDragging =
      false := rfl
  have hRgrid : ((dragEndRestoredBlock s b).setGridPosition s.grid row col).2 =
      ((dragEndRestoredBlock s b).setGridPosition s.grid row col).1.updateGridOccupancy
        s.grid := rfl
  have hdclear := hinv.dragClear b hb hdrag
  have hoccR : ∀ q : GridPosition,
      q ∈ ((dragEndRestoredBlock s b).setGridPosition s.grid row col).1.getOccupiedCells ↔
      ∃ o ∈ b.shapeOffsets, q = (⟨row + o.row + b.shapeOriginOffset.row,
        col + o.col + b.shapeOriginOffset.col⟩ : GridPosition) := by
    intro q
    unfold Block.getOccupiedCells
    rw [List.mem_map]
    constructor
    · rintro ⟨o, ho, rfl⟩
      exact ⟨o, ho, rfl⟩
    · rintro ⟨o, ho, rfl⟩
      exact ⟨o, ho, rfl⟩
  have hoccR_inb : ∀ q ∈
      ((dragEndRestoredBlock s b).setGridPosition s.grid row col).1.getOccupiedCells,
      s.grid.isInBounds q.row q.col = true := by
    intro q hq
    obtain ⟨o, ho, rfl⟩ := (hoccR q).mp hq
    exact hinb o ho
  have hoccR_free : ∀ q ∈
      ((dragEndRestoredBlock s b).setGridPosition s.grid row col).1.getOccupiedCells,
      s.grid.cells q.row q.col = none := by
    intro q hq
    obtain ⟨o, ho, rfl⟩ := (hoccR q).mp hq
    exact hfree o ho
  have hoccR_noobst : ∀ q ∈
      ((dragEndRestoredBlock s b).setGridPosition s.grid row col).1.getOccupiedCells,
      q ∉ s.obstacles := by
    intro q hq
    obtain ⟨o, ho, rfl⟩ := (hoccR q).mp hq
    exact hnoobst o ho
  have hcells : ∀ r c,
      ((dragEndRestoredBlock s b).setGridPosition s.grid row col).2.cells r c =
      if s.grid.isInBounds r c = true ∧ (⟨r, c⟩ : GridPosition) ∈
          ((dragEndRestoredBlock s b).setGridPosition s.grid row col).1.getOccupiedCells then
        some b.id
      else s.grid.cells r c := by
    intro r c
    rw [hRgrid, Block.cells_updateGridOccupancy, hRid]
    by_cases h1 : s.grid.isInBounds r c = true ∧ (⟨r, c⟩ : GridPosition) ∈
        ((dragEndRestoredBlock s b).setGridPosition s.grid row col).1.getOccupiedCells
    · rw [if_pos h1, if_pos h1]
    · rw [if_neg h1, if_neg h1, if_neg]
      intro ⟨_, h2⟩
      exact hdclear r c h2
  refine ⟨?_, ?_, ?_, ?_, ?_, ?_, ?_, ?_, ?_, ?_⟩
  · intro r c hoob
    have hoob2 : s.grid.isInBounds r c = false := by
      rw [show ({ s with
          grid := ((dragEndRestoredBlock s b).setGridPosition s.grid row col).2
          blocks := updateBlockList s.blocks
            ((dragEndRestoredBlock s b).setGridPosition s.grid row col).1
          active := none } : GameState).grid =
        ((dragEndRestoredBlock s b).setGridPosition s.grid row col).1.updateGridOccupancy
          s.grid from rfl, Block.isInBounds_updateGridOccupancy] at hoob
      exact hoob
    show ((dragEndRestoredBlock s b).setGridPosition s.grid row col).2.cells r c = none
    rw [hcells]
    have h1 : ¬(s.grid.isInBounds r c = true ∧ (⟨r, c⟩ : GridPosition) ∈
        ((dragEndRestoredBlock s b).setGridPosition s.grid row col).1.getOccupiedCells) := by
      intro ⟨hc1, _⟩
      rw [hc1] at hoob2
      exact Bool.noConfusion hoob2
    rw [if_neg h1]
    exact hinv.oobEmpty r c hoob2
  · show (List.map Block.id (updateBlockList s.blocks _)).Nodup
    rw [map_id_updateBlockList]
    exact hinv.nodupIds
  · intro d hd
    rcases mem_updateBlockList_elim _ _ _ hd with rfl | ⟨hdo, _⟩
    · show b.shapeOriginOffset = _
      exact hinv.originZero b hb
    · exact hinv.originZero d hdo
  · intro d hd hddrag r c
    rcases mem_updateBlockList_elim _ _ _ hd with rfl | ⟨hdo, hdne⟩
    · show ((dragEndRestoredBlock s b).setGridPosition s.grid row col).2.cells r c =
        some _ ↔ _
      rw [hcells, hRid]
      constructor
      · intro hv
        by_cases h1 : s.grid.isInBounds r c = true ∧ (⟨r, c⟩ : GridPosition) ∈
            ((dragEndRestoredBlock s b).setGridPosition s.grid row col).1.getOccupiedCells
        · exact h1.2
        · rw [if_neg h1] at hv
          exact absurd hv (hdclear r c)
      · intro hv
        rw [if_pos ⟨hoccR_inb _ hv, hv⟩]
    · rw [hRid] at hdne
      show ((dragEndRestoredBlock s b).setGridPosition s.grid row col).2.cells r c =
        some d.id ↔ _
      rw [hcells]
      constructor
      · intro hv
        by_cases h1 : s.grid.isInBounds r c = true ∧ (⟨r, c⟩ : GridPosition) ∈
            ((dragEndRestoredBlock s b).setGridPosition s.grid row col).1.getOccupiedCells
        · rw [if_pos h1] at hv
          exact absurd (Option.some.inj hv).symm hdne
        · rw [if_neg h1] at hv
          exact (hinv.sync d hdo hddrag r c).mp hv
      · intro hv
        have hcell := (hinv.sync d hdo hddrag r c).mpr hv
        have h1 : ¬(s.grid.isInBounds r c = true ∧ (⟨r, c⟩ : GridPosition) ∈
            ((dragEndRestoredBlock s b).setGridPosition s.grid row col).1.getOccupiedCells) := by
          intro ⟨_, h2⟩
          rw [hoccR_free _ h2] at hcell
          exact Option.noConfusion hcell
        rw [if_neg h1]
        exact hcell
  · intro d hd hddrag p hp
    rcases mem_updateBlockList_elim _ _ _ hd with rfl | ⟨hdo, _⟩
    · exact hoccR_noobst p hp
    · exact hinv.noObst d hdo hddrag p hp
  · intro d hd hddrag r c
    rcases mem_updateBlockList_elim _ _ _ hd with rfl | ⟨hdo, hdne⟩
    · rw [hRdrag] at hddrag
      exact Bool.noConfusion hddrag
    · rw [hRid] at hdne
      show ((dragEndRestoredBlock s b).setGridPosition s.grid row col).2.cells r c ≠
        some d.id
      rw [hcells]
      by_cases h1 : s.grid.isInBounds r c = true ∧ (⟨r, c⟩ : GridPosition) ∈
          ((dragEndRestoredBlock s b).setGridPosition s.grid row col).1.getOccupiedCells
      · rw [if_pos h1]
        intro hv
        exact hdne (Option.some.inj hv).symm
      · rw [if_neg h1]
        exact hinv.dragClear d hdo hddrag r c
  · intro d hd hddrag
    rcases mem_updateBlockList_elim _ _ _ hd with rfl | ⟨hdo, _⟩
    · rfl
    · exact hinv.lastEq d hdo hddrag
  · intro d hd hactd
    exact absurd hactd (by simp)
  · intro d hd hddrag
    rcases mem_updateBlockList_elim _ _ _ hd with rfl | ⟨hdo, hdne⟩
    · rw [hRdrag] at hddrag
      exact Bool.noConfusion hddrag
    · have hda := hinv.draggingActive d hdo hddrag
      rw [hactive] at hda
      rw [hRid] at hdne
      exact absurd (Option.some.inj hda).symm hdne
  · intro r c occ h
    rw [show ({ s with
        grid := ((dragEndRestoredBlock s b).setGridPosition s.grid row col).2
        blocks := updateBlockList s.blocks
          ((dragEndRestoredBlock s b).setGridPosition s.grid row col).1
        active := none } : GameState).grid.cells r c =
      ((dragEndRestoredBlock s b).setGridPosition s.grid row col).2.cells r c from rfl,
      hcells] at h
    by_cases h1 : s.grid.isInBounds r c = true ∧ (⟨r, c⟩ : GridPosition) ∈
        ((dragEndRestoredBlock s b).setGridPosition s.grid row col).1.getOccupiedCells
    · rw [if_pos h1] at h
      refine ⟨((dragEndRestoredBlock s b).setGridPosition s.grid row col).1, ?_, ?_⟩
      · exact self_mem_updateBlockList _ b _ hb hRid.symm
      · rw [hRid]
        exact Option.some.inj h
    · rw [if_neg h1] at h
      obtain ⟨d, hd, hdid⟩ := hinv.tableIds r c occ h
      by_cases hdb : d.id =
          ((dragEndRestoredBlock s b).setGridPosition s.grid row col).1.id
      · refine ⟨((dragEndRestoredBlock s b).setGridPosition s.grid row col).1, ?_, ?_⟩
        · exact self_mem_updateBlockList _ d _ hd hdb
        · rw [← hdb]
          exact hdid
      · exact ⟨d, other_mem_updateBlockList _ _ d hd hdb, hdid⟩

/-- Removing the active block through an exit preserves the
strengthened invariant. -/
theorem fullInv_remove (s : GameState) (b : Block) (hb : b ∈ s.blocks)
    (hactive : s.active = some b.id) (hinv : FullInv s) :
    FullInv { s with grid := s.grid.clearEntity b.id
                     blocks := s.blocks.filter fun c => c.id ≠ b.id
                     active := none } := by
  have hmemf : ∀ d : Block, d ∈ s.blocks.filter (fun c => c.id ≠ b.id) →
      d ∈ s.blocks ∧ d.id ≠ b.id := by
    intro d hd
    have := List.mem_filter.mp hd
    exact ⟨this.1, by simpa using this.2⟩
  have hcells : ∀ r c, (s.grid.clearEntity b.id).cells r c =
      if s.grid.isInBounds r c = true ∧ s.grid.cells r c = some b.id then none
      else s.grid.cells r c := fun r c => Grid.cells_clearEntity s.grid b.id r c
  refine ⟨?_, ?_, ?_, ?_, ?_, ?_, ?_, ?_, ?_, ?_⟩
  · intro r c hoob
    have hoob2 : s.grid.isInBounds r c = false := hoob
    show (s.grid.clearEntity b.id).cells r c = none
    rw [hcells]
    have h1 : ¬(s.grid.isInBounds r c = true ∧ s.grid.cells r c = some b.id) := by
      intro ⟨hx, _⟩
      rw [hx] at hoob2
      exact Bool.noConfusion hoob2
    rw [if_neg h1]
    exact hinv.oobEmpty r c hoob2
  · show ((s.blocks.filter fun c => c.id ≠ b.id).map Block.id).Nodup
    exact hinv.nodupIds.sublist ((List.filter_sublist s.blocks).map Block.id)
  · intro d hd
    exact hinv.originZero d (hmemf d hd).1
  · intro d hd hddrag r c
    obtain ⟨hdo, hdne⟩ := hmemf d hd
    show (s.grid.clearEntity b.id).cells r c = some d.id ↔ _
    rw [hcells]
    constructor
    · intro hv
      by_cases h1 : s.grid.isInBounds r c = true ∧ s.grid.cells r c = some b.id
      · rw [if_pos h1] at hv
        exact Option.noConfusion hv
      · rw [if_neg h1] at hv
        exact (hinv.sync d hdo hddrag r c).mp hv
    · intro hv
      have hcell := (hinv.sync d hdo hddrag r c).mpr hv
      have h1 : ¬(s.grid.isInBounds r c = true ∧ s.grid.cells r c = some b.id) := by
        intro ⟨_, h2⟩
        rw [h2] at hcell
        exact hdne (Option.some.inj hcell).symm
      rw [if_neg h1]
      exact hcell
  · intro d hd hddrag p hp
    exact hinv.noObst d (hmemf d hd).1 hddrag p hp
  · intro d hd hddrag r c
    obtain ⟨hdo, _⟩ := hmemf d hd
    show (s.grid.clearEntity b.id).cells r c ≠ some d.id
    rw [hcells]
    by_cases h1 : s.grid.isInBounds r c = true ∧ s.grid.cells r c = some b.id
    · rw [if_pos h1]
      exact fun hv => Option.noConfusion hv
    · rw [if_neg h1]
      exact hinv.dragClear d hdo hddrag r c
  · intro d hd hddrag
    exact hinv.lastEq d (hmemf d hd).1 hddrag
  · intro d hd hactd
    exact absurd hactd (by simp)
  · intro d hd hddrag
    obtain ⟨hdo, hdne⟩ := hmemf d hd
    have hda := hinv.draggingActive d hdo hddrag
    rw [hactive] at hda
    exact absurd (Option.some.inj hda).symm hdne
  · intro r c occ h
    have h2 : (s.grid.clearEntity b.id).cells r c = some occ := h
    rw [hcells] at h2
    by_cases h1 : s.grid.isInBounds r c = true ∧ s.grid.cells r c = some b.id
    · rw [if_pos h1] at h2
      exact absurd h2 (fun hx => Option.noConfusion hx)
    · rw [if_neg h1] at h2
      obtain ⟨d, hd, hdid⟩ := hinv.tableIds r c occ h2
      have hdneb : d.id ≠ b.id := by
        intro hdb
        apply h1
        by_cases hin : s.grid.isInBounds r c = true
        · rw [hdb] at hdid
          rw [← hdid] at h2
          exact ⟨hin, h2⟩
        · have hf : s.grid.isInBounds r c = false := by
            cases hx : s.grid.isInBounds r c
            · rfl
            · exact absurd hx hin
          rw [hinv.oobEmpty r c hf] at h2
          exact absurd h2 (fun hx => Option.noConfusion hx)
      refine ⟨d, ?_, hdid⟩
      exact List.mem_filter.mpr ⟨hd, by simpa using hdneb⟩

/-- A drag end preserves the strengthened invariant. -/
theorem fullInv_dragEnd (s : GameState) (b : Block) (hb : b ∈ s.blocks)
    (hactive : s.active = some b.id) (hinv : FullInv s) :
    FullInv (onDragEnd s b).state := by
  by_cases hdrag : b.isDragging = true
  · cases hexit : CollisionDetector.checkExitCondition s.grid (dragEndTempBlock s b)
        s.exitZones with
    | some e =>
      have hres : (onDragEnd s b).state =
          { s with grid := s.grid.clearEntity b.id
                   blocks := s.blocks.filter fun c => c.id ≠ b.id
                   active := none } := by
        unfold onDragEnd
        rw [if_pos hdrag, hexit]
      rw [hres]
      exact fullInv_remove s b hb hactive hinv
    | none =>
      cases hfind : CollisionDetector.findNearestValidGridPosition s.grid s.obstacles
          (dragEndRestoredBlock s b) (dragEndRestoredBlock s b).x
          (dragEndRestoredBlock s b).y with
      | some p =>
        have hres : (onDragEnd s b).state =
            { s with
              grid := ((dragEndRestoredBlock s b).setGridPosition s.grid p.row p.col).2
              blocks := updateBlockList s.blocks
                ((dragEndRestoredBlock s b).setGridPosition s.grid p.row p.col).1
              active := none } := by
          unfold onDragEnd
          rw [if_pos hdrag, hexit, hfind]
        rw [hres]
        have hval : CollisionDetector.isValidGridPosition s.grid s.obstacles
            (dragEndRestoredBlock s b) p.row p.col = true := by
          rw [findNearestValidGridPosition_eq_find] at hfind
          have hv2 := List.find?_some hfind
          exact hv2
        have hvcells := isValidGridPosition_cells s.grid s.obstacles
          (dragEndRestoredBlock s b) p.row p.col hval
        have horig : b.shapeOriginOffset = ⟨0, 0⟩ := hinv.originZero b hb
        have hoffs : (dragEndRestoredBlock s b).shapeOffsets = b.shapeOffsets := rfl
        have hdclear := hinv.dragClear b hb hdrag
        apply fullInv_commit s b hb hactive hdrag hinv p.row p.col
        · intro o ho
          have := (hvcells o (by rw [hoffs]; exact ho)).1
          rw [horig]
          simpa using this
        · intro o ho
          rcases (hvcells o (by rw [hoffs]; exact ho)).2.1 with hc | hc
          · rw [horig]
            simpa using hc
          · exact absurd hc (hdclear _ _)
        · intro o ho
          have := (isObstacle_eq_false_iff ..).mp (hvcells o (by rw [hoffs]; exact ho)).2.2
          rw [horig]
          simpa using this
      | none =>
        have hres : (onDragEnd s b).state =
            { s with
              grid := ((dragEndRestoredBlock s b).setGridPosition s.grid
                (dragEndRestoredBlock s b).lastValidPosition.row
                (dragEndRestoredBlock s b).lastValidPosition.col).2
              blocks := updateBlockList s.blocks
                ((dragEndRestoredBlock s b).setGridPosition s.grid
                  (dragEndRestoredBlock s b).lastValidPosition.row
                  (dragEndRestoredBlock s b).lastValidPosition.col).1
              active := none } := by
          unfold onDragEnd
          rw [if_pos hdrag, hexit, hfind]
        rw [hres]
        have hal := hinv.activeLast b hb hactive
        apply fullInv_commit s b hb hactive hdrag hinv
          (dragEndRestoredBlock s b).lastValidPosition.row
          (dragEndRestoredBlock s b).lastValidPosition.col
        · intro o ho
          exact (hal o ho).1
        · intro o ho
          exact (hal o ho).2.2
        · intro o ho
          exact (hal o ho).2.1
  · have hres : (onDragEnd s b).state = s := by
      unfold onDragEnd
      rw [if_neg hdrag]
    rw [hres]
    exact hinv

/-- The strengthened invariant holds in every reachable state of the
validated lifecycle. -/
theorem fullInv_reachable (s0 s : GameState) (h0 : FullInv s0)
    (h : Reachable true s0 s) : FullInv s := by
  unfold Reachable at h
  induction h with
  | refl => exact h0
  | tail hsteps hstep ih =>
    cases hstep with
    | construct cfg hquiet hfresh hvalid =>
      exact fullInv_construct _ cfg hquiet hfresh (hvalid rfl) ih
    | startDrag b hbm hact =>
      exact fullInv_startDrag _ b hbm hact ih
    | dragMove b x y hbm hact hdr =>
      exact fullInv_dragMove _ b x y hbm hact hdr ih
    | dragEnd b hbm hact =>
      exact fullInv_dragEnd _ b hbm hact ih

theorem noOverlap_of_fullInv (s : GameState) (hinv : FullInv s) : NoOverlap s := by
  constructor
  · intro b hb hbnd c hc hcid hcnd p hpb hpc
    obtain ⟨pr, pc⟩ := p
    have h1 : s.grid.cells pr pc = some b.id :=
      (hinv.sync b hb hbnd pr pc).mpr hpb
    have h2 : s.grid.cells pr pc = some c.id :=
      (hinv.sync c hc hcnd pr pc).mpr hpc
    rw [h1] at h2
    exact hcid (Option.some.inj h2).symm
  · intro b hb hbnd p hp
    exact hinv.noObst b hb hbnd p hp

/-- C1 (amended): in every state reachable through the drag lifecycle
from an empty level by validated construction, single-pointer drags and
drag ends, any two distinct non-dragging blocks occupy disjoint cell
sets and no non-dragging block overlaps an obstacle. -/
theorem no_overlap_invariant (rows cols : Int) (cellSize gx gy wall : ℚ)
    (obstacles : List GridPosition) (exitZones : List ExitZone) (s : GameState)
    (h : Reachable true (initState rows cols cellSize gx gy wall obstacles exitZones) s) :
    NoOverlap s :=
  noOverlap_of_fullInv s (fullInv_reachable _ s
    (fullInv_initState rows cols cellSize gx gy wall obstacles exitZones) h)

/-- Witness for the amended C1 at a concrete reachable state: one valid
construction on an empty 2×2 level. -/
theorem no_overlap_invariant_witness : NoOverlap oneBlockState :=
  no_overlap_invariant 2 2 40 0 0 10 [] [] oneBlockState
    (Relation.ReflTransGen.single
      (Step.construct _ _ rfl (by decide) (fun _ => by decide)))

/-- Counterexample to C1 as stated: with the unvalidated construction
the code performs, two overlapping constructions yield a reachable
state in which two distinct non-dragging blocks occupy the same cell. -/
theorem no_overlap_counterexample :
    Reachable false (initState 2 2 40 0 0 10 [] []) overlapState ∧
    ¬NoOverlap overlapState := by
  constructor
  · exact Relation.ReflTransGen.tail
      (Relation.ReflTransGen.single
        (Step.construct _ _ rfl (by decide) (fun h => Bool.noConfusion h)))
      (Step.construct _ _ rfl (by decide) (fun h => Bool.noConfusion h))
  · intro hno
    have h1 := hno.1
    have := h1 (mkBlock (initState 2 2 40 0 0 10 [] []).grid
        ⟨"a", "red", .r1x1, ⟨0, 0⟩⟩).1 (by decide) rfl
      (mkBlock oneBlockState.grid ⟨"b", "blue", .r1x1, ⟨0, 0⟩⟩).1 (by decide)
      (by decide) rfl ⟨0, 0⟩ (by decide)
    exact this (by decide)

end ColorBlock
